import Mathlib

/-!
Fluid3DCalculator: buffer bookkeeping of the 3D fluid solver

A shallow embedding of `Fluid3DCalculator.cpp` (Fluid-Simulation-DirectX11).
The Direct3D device and device context are the environment: the device answers
every creation call with an `HRESULT`, the context answers every `Map` call with
an `HRESULT`, and every call the solver issues on the context is appended to a
log.  A view (SRV, UAV, RTV) is identified with the 3D texture it was created on.

* The model: `Initialize`, `Process` and the functions they call, as state
  passing over `Sim`; a thrown `std::runtime_error` is `Except.error`.
* Closed forms of the log of one step, and predicates read along it.
* Texture contents: the three projection shaders are not part of the sources
  and are modelled from section 4.5 of the specification over exact rationals;
  every other shader is an arbitrary function of its inputs.
* Lemmas, then one theorem per claim.
-/

namespace Fluid3D

/-! ## Direct3D result codes -/

/-- A Direct3D `HRESULT`: a signed 32 bit code, negative on failure. -/
abbrev HRESULT := Int

/-- The `S_OK` success code. -/
def S_OK : HRESULT := 0

/-- The `E_FAIL` failure code (0x80004005 as a signed 32 bit value). -/
def E_FAIL : HRESULT := -2147467259

/-- The `FAILED(hr)` test of the Windows headers: `hr < 0`. -/
def FAILED (hr : HRESULT) : Bool := decide (hr < 0)

/-! ## Slot indices (`#define READ 0` ... `#define WRITE3 3`) -/

/-- `#define READ 0`. -/
abbrev READ {n : Nat} : Fin (n + 1) := 0

/-- `#define WRITE 1`. -/
abbrev WRITE {n : Nat} : Fin (n + 2) := 1

/-- `#define WRITE2 2`. -/
abbrev WRITE2 {n : Nat} : Fin (n + 3) := 2

/-- `#define WRITE3 3`. -/
abbrev WRITE3 {n : Nat} : Fin (n + 4) := 3

/-! ## Simulation parameters (the `#define`s of lines 17-30, as exact decimals) -/

def TIME_STEP : ℚ := 125 / 1000
def IMPULSE_RADIUS : ℚ := 3
def JACOBI_ITERATIONS : Nat := 15
def VEL_DISSIPATION : ℚ := 999 / 1000
def DENSITY_DISSIPATION : ℚ := 999 / 1000
def TEMPERATURE_DISSIPATION : ℚ := 99 / 100
def SMOKE_BUOYANCY : ℚ := 1
def SMOKE_WEIGHT : ℚ := 5 / 100
def AMBIENT_TEMPERATURE : ℚ := 0
def IMPULSE_TEMPERATURE : ℚ := 15 / 10
def IMPULSE_DENSITY : ℚ := 1

/-! ## Data model -/

/-- The grid fields the solver owns textures for. -/
inductive Field where
  | velocity
  | temperature
  | density
  | pressure
  | divergence
  deriving DecidableEq, Repr

/-- A 3D texture created by `Initialize`: the `index`-th texture of a field
(`velocityText[i]`, `densityText[i]`, `temperatureText[i]`, `divergenceText`,
`pressureText[i]`). -/
structure Texture3D where
  field : Field
  index : Nat
  deriving DecidableEq, Repr

/-- A view pointer (`CComPtr`): null, or a view of a texture. -/
abbrev View := Option Texture3D

/-- The `ShaderParams` struct: one shader-resource view and one unordered-access
view. -/
structure ShaderParams where
  mSRV : View
  mUAV : View
  deriving DecidableEq, Repr

/-- The compute shaders owned by the solver. -/
inductive Shader where
  | forwardAdvection
  | backwardAdvection
  | macCormarckAdvection
  | impulse
  | jacobi
  | divergence
  | subtractGradient
  | buoyancy
  deriving DecidableEq, Repr

/-- The three constant buffers. -/
inductive ConstantBuffer where
  | general
  | dissipation
  | impulse
  deriving DecidableEq, Repr

/-- The three fields that `Advect` is called on (each owns four slots). -/
inductive Quantity where
  | velocity
  | temperature
  | density
  deriving DecidableEq, Repr

/-- The field of an advected quantity. -/
def Quantity.toField : Quantity → Field
  | .velocity => .velocity
  | .temperature => .temperature
  | .density => .density

/-- One `ShaderParams*` argument of a `Compute` call: the slot expression of the
call site (`&mVelocitySP[READ]` is field velocity, slot 0) and the `ShaderParams`
value that slot held when the call was made. -/
structure Arg where
  field : Field
  slot : Nat
  sp : ShaderParams
  deriving DecidableEq, Repr

/-- One compute pass: a `Compute` call on a shader, with its input arguments in
call order and its output argument. -/
structure Pass where
  shader : Shader
  inputs : List Arg
  output : Arg
  deriving DecidableEq, Repr

/-- The calls the solver issues on the device context. -/
inductive Event where
  | setSamplers
  | map (cb : ConstantBuffer) (hr : HRESULT)
  | update (cb : ConstantBuffer) (data : List ℚ)
  | dispatch (p : Pass)
  | clear (rtv : View)
  deriving DecidableEq

/-- The `Vector3` of grid dimensions. -/
structure Vector3 where
  x : ℚ
  y : ℚ
  z : ℚ
  deriving DecidableEq

/-- The members of `Fluid3DCalculator` that `Initialize` and `Process` use.
The shader objects carry no state of their own here; a constant buffer or the
sampler is recorded by whether its pointer is non-null.  The declaration of
`jacobiIterations` is not part of the sources; it is a count, so a `Nat`. -/
structure Fluid3DCalculator where
  macCormackEnabled : Bool
  jacobiIterations : Nat
  mDimensions : Vector3
  mVelocitySP : Fin 4 → ShaderParams
  mDensitySP : Fin 4 → ShaderParams
  mTemperatureSP : Fin 4 → ShaderParams
  mPressureSP : Fin 2 → ShaderParams
  mDivergenceSP : ShaderParams
  mPressureRenderTargets : Fin 2 → View
  mInputBufferGeneral : Bool
  mInputBufferDissipation : Bool
  mInputBufferImpulse : Bool
  mSampleState : Bool

/-- The solver together with the device context it talks to: the log of calls
issued so far and the number of `Map` calls answered so far. -/
structure Sim where
  self : Fluid3DCalculator
  log : List Event
  mapCalls : Nat

/-- The device context as environment: the result of the `n`-th `Map` call. -/
abbrev MapOracle := Nat → HRESULT

/-! ## Bookkeeping helpers -/

/-- `std::swap(arr[i], arr[j])` on an array of slots. -/
def swap {n : Nat} {α : Type} (arr : Fin n → α) (i j : Fin n) : Fin n → α :=
  fun k => if k = i then arr j else if k = j then arr i else arr k

/-- The four-slot array of an advected quantity. -/
def Fluid3DCalculator.slots (c : Fluid3DCalculator) : Quantity → Fin 4 → ShaderParams
  | .velocity => c.mVelocitySP
  | .temperature => c.mTemperatureSP
  | .density => c.mDensitySP

/-- Assignment to the four-slot array of an advected quantity. -/
def Fluid3DCalculator.setSlots (c : Fluid3DCalculator) (q : Quantity)
    (arr : Fin 4 → ShaderParams) : Fluid3DCalculator :=
  match q with
  | .velocity => { c with mVelocitySP := arr }
  | .temperature => { c with mTemperatureSP := arr }
  | .density => { c with mDensitySP := arr }

/-- The argument `&target[i]` of a `Compute` call. -/
def Fluid3DCalculator.arg (c : Fluid3DCalculator) (q : Quantity) (i : Fin 4) : Arg :=
  { field := q.toField, slot := i.val, sp := c.slots q i }

/-- The argument `&mPressureSP[i]` of a `Compute` call. -/
def Fluid3DCalculator.pressureArg (c : Fluid3DCalculator) (i : Fin 2) : Arg :=
  { field := .pressure, slot := i.val, sp := c.mPressureSP i }

/-- The argument `mDivergenceSP.get()` of a `Compute` call (the field has one
buffer, slot 0). -/
def Fluid3DCalculator.divergenceArg (c : Fluid3DCalculator) : Arg :=
  { field := .divergence, slot := 0, sp := c.mDivergenceSP }

/-- Append one call to the log. -/
def Sim.emit (w : Sim) (e : Event) : Sim :=
  { w with log := w.log ++ [e] }

/-- A `shader->Compute(pD3dGraphicsObj, inputs..., output)` call. -/
def Compute (sh : Shader) (inputs : List Arg) (output : Arg) (w : Sim) : Sim :=
  w.emit (.dispatch { shader := sh, inputs := inputs, output := output })

/-- `swap(target[i], target[j])` on the array of an advected quantity. -/
def swapSlots (q : Quantity) (i j : Fin 4) (w : Sim) : Sim :=
  { w with self := w.self.setSlots q (swap (w.self.slots q) i j) }

/-! ## The constant-buffer setters (lines 378-448) -/

/-- The shared shape of `SetGeneralBuffer`, `SetDissipationBuffer` and
`SetImpulseBuffer`: `Map` the buffer, throw `std::runtime_error` when the result
is `FAILED`, otherwise write the data, `Unmap` and bind the buffer.  A thrown
exception is `Except.error` carrying the state at the throw. -/
def setBuffer (ctx : MapOracle) (cb : ConstantBuffer) (data : List ℚ) (w : Sim) :
    Except Sim Sim :=
  let result := ctx w.mapCalls
  let w1 := { w with mapCalls := w.mapCalls + 1, log := w.log ++ [Event.map cb result] }
  if FAILED result then
    .error w1
  else
    .ok (w1.emit (.update cb data))

/-- `SetGeneralBuffer` (lines 378-402). -/
def SetGeneralBuffer (ctx : MapOracle) (w : Sim) : Except Sim Sim :=
  setBuffer ctx .general
    [TIME_STEP, SMOKE_BUOYANCY, SMOKE_WEIGHT, AMBIENT_TEMPERATURE,
      w.self.mDimensions.x, w.self.mDimensions.y, w.self.mDimensions.z, 0] w

/-- `SetDissipationBuffer` (lines 404-424). -/
def SetDissipationBuffer (ctx : MapOracle) (dissipation : ℚ) (w : Sim) : Except Sim Sim :=
  setBuffer ctx .dissipation [dissipation, 0, 0, 0] w

/-- `SetImpulseBuffer` (lines 426-448); `point` and `amount` are `Vector4`s. -/
def SetImpulseBuffer (ctx : MapOracle) (point amount : List ℚ) (radius : ℚ) (w : Sim) :
    Except Sim Sim :=
  setBuffer ctx .impulse (point ++ amount ++ [radius, 0, 0, 0]) w

/-! ## The stages of a step -/

/-- `Advect(target)` (lines 339-346). -/
def Advect (target : Quantity) (w : Sim) : Sim :=
  let c := w.self
  let w1 := Compute .forwardAdvection
    [c.arg .velocity READ, c.arg target READ] (c.arg target WRITE2) w
  if c.macCormackEnabled then
    let w2 := Compute .backwardAdvection
      [c.arg .velocity READ, c.arg target WRITE2] (c.arg target WRITE3) w1
    Compute .macCormarckAdvection
      [c.arg .velocity READ, c.arg target WRITE2, c.arg target WRITE3, c.arg target READ]
      (c.arg target WRITE) w2
  else
    w1

/-- `RefreshConstantImpulse` (lines 348-357). -/
def RefreshConstantImpulse (ctx : MapOracle) (w : Sim) : Except Sim Sim := do
  let d := w.self.mDimensions
  let w ← SetImpulseBuffer ctx [d.x * (1 / 2), d.y, d.z * (1 / 2), 0]
    [IMPULSE_TEMPERATURE, IMPULSE_TEMPERATURE, IMPULSE_TEMPERATURE, 0] IMPULSE_RADIUS w
  let w := Compute .impulse [w.self.arg .temperature READ] (w.self.arg .temperature WRITE) w
  let w := swapSlots .temperature READ WRITE w
  let w ← SetImpulseBuffer ctx [d.x * (1 / 2), d.y, d.z * (1 / 2), 0]
    [IMPULSE_DENSITY, IMPULSE_DENSITY, IMPULSE_DENSITY, 0] IMPULSE_RADIUS w
  let w := Compute .impulse [w.self.arg .density READ] (w.self.arg .density WRITE) w
  let w := swapSlots .density READ WRITE w
  pure w

/-- One round of the loop body of `CalculatePressureGradient` (lines 369-374):
a Jacobi pass from pressure `READ` and the divergence to pressure `WRITE`, then
the swap of the two pressure slots. -/
def jacobiStep (w : Sim) : Sim :=
  let w1 := Compute .jacobi [w.self.pressureArg READ, w.self.divergenceArg]
    (w.self.pressureArg WRITE) w
  { w1 with self := { w1.self with mPressureSP := swap w1.self.mPressureSP READ WRITE } }

/-- The loop `for (i = 0; i < jacobiIterations; ++i)` of lines 368-375, by the
number of rounds still to run. -/
def jacobiLoop : Nat → Sim → Sim
  | 0, w => w
  | n + 1, w => jacobiLoop n (jacobiStep w)

/-- `CalculatePressureGradient` (lines 359-376): clear the render target in slot
`READ` of `mPressureRenderTargets`, then run the Jacobi loop. -/
def CalculatePressureGradient (w : Sim) : Sim :=
  let w1 := w.emit (.clear (w.self.mPressureRenderTargets READ))
  jacobiLoop w1.self.jacobiIterations w1

/-- Lines 301-321 of `Process`: bind the sampler, set the general buffer, advect
velocity, temperature and density, then swap the result slot of each into
`READ`. -/
def ProcessAdvection (ctx : MapOracle) (w : Sim) : Except Sim Sim := do
  let w := w.emit .setSamplers
  let w ← SetGeneralBuffer ctx w
  let w ← SetDissipationBuffer ctx VEL_DISSIPATION w
  let w := Advect .velocity w
  let w ← SetDissipationBuffer ctx TEMPERATURE_DISSIPATION w
  let w := Advect .temperature w
  let w ← SetDissipationBuffer ctx DENSITY_DISSIPATION w
  let w := Advect .density w
  let resultBuffer : Fin 4 := if w.self.macCormackEnabled then WRITE else WRITE2
  let w := swapSlots .velocity READ resultBuffer w
  let w := swapSlots .temperature READ resultBuffer w
  let w := swapSlots .density READ resultBuffer w
  pure w

/-- Lines 323-336 of `Process`: buoyancy, the constant impulse, divergence, the
pressure solve and the gradient subtraction. -/
def ProcessProjection (ctx : MapOracle) (w : Sim) : Except Sim Sim := do
  let w := Compute .buoyancy
    [w.self.arg .velocity READ, w.self.arg .temperature READ, w.self.arg .density READ]
    (w.self.arg .velocity WRITE) w
  let w := swapSlots .velocity READ WRITE w
  let w ← RefreshConstantImpulse ctx w
  let w := Compute .divergence [w.self.arg .velocity READ] w.self.divergenceArg w
  let w := CalculatePressureGradient w
  let w := Compute .subtractGradient [w.self.arg .velocity READ, w.self.pressureArg READ]
    (w.self.arg .velocity WRITE) w
  let w := swapSlots .velocity READ WRITE w
  pure w

/-- `Process` (lines 300-337): one simulation step. -/
def Process (ctx : MapOracle) (w : Sim) : Except Sim Sim :=
  ProcessAdvection ctx w >>= ProcessProjection ctx

/-- `GetVolumeTexture` (lines 450-452). -/
def GetVolumeTexture (c : Fluid3DCalculator) : View :=
  (c.mDensitySP READ).mSRV

/-! ## Construction and `Initialize` (lines 34-45 and 72-298) -/

/-- The Direct3D device as environment: the answer to every creation call that
`Initialize` makes.  Shader `Initialize` calls answer with a `bool`, the device
calls with an `HRESULT`; texture and view creations are told apart by the field
and the loop index of the call. -/
structure Device where
  shaderInitialize : Shader → Bool
  CreateTexture3D : Field → Nat → HRESULT
  CreateShaderResourceView : Field → Nat → HRESULT
  CreateUnorderedAccessView : Field → Nat → HRESULT
  CreateRenderTargetView : Nat → HRESULT
  CreateBuffer : ConstantBuffer → HRESULT
  CreateSamplerState : HRESULT

/-- The constructor (lines 34-45): MacCormack on, `JACOBI_ITERATIONS` rounds,
every pointer null. -/
def Fluid3DCalculator.new (dimensions : Vector3) : Fluid3DCalculator :=
  { macCormackEnabled := true
    jacobiIterations := JACOBI_ITERATIONS
    mDimensions := dimensions
    mVelocitySP := fun _ => ⟨none, none⟩
    mDensitySP := fun _ => ⟨none, none⟩
    mTemperatureSP := fun _ => ⟨none, none⟩
    mPressureSP := fun _ => ⟨none, none⟩
    mDivergenceSP := ⟨none, none⟩
    mPressureRenderTargets := fun _ => none
    mInputBufferGeneral := false
    mInputBufferDissipation := false
    mInputBufferImpulse := false
    mSampleState := false }

/-- The out-pointer of a creation call: set when the call succeeded, left as it
was otherwise. -/
def created {α : Type} (hr : HRESULT) (old new : α) : α :=
  if FAILED hr then old else new

/-- The value of `FAILED(result)` for a `bool result`: the `bool` is promoted to
the integer 0 or 1 before the sign test. -/
def FAILED_bool (result : Bool) : Bool :=
  FAILED (if result then 1 else 0)

/-- One round of a texture loop (lines 138-155, 161-178, 183-201): create the
texture, its SRV and its UAV, returning `false` at the first `FAILED` result. -/
def createSlot (d : Device) (f : Field) {n : Nat} (i : Fin n)
    (arr : Fin n → ShaderParams) : Bool × (Fin n → ShaderParams) :=
  let hr := d.CreateTexture3D f i.val
  let text : View := created hr none (some ⟨f, i.val⟩)
  if FAILED hr then (false, arr) else
  let hr := d.CreateShaderResourceView f i.val
  let arr := Function.update arr i { arr i with mSRV := created hr (arr i).mSRV text }
  if FAILED hr then (false, arr) else
  let hr := d.CreateUnorderedAccessView f i.val
  let arr := Function.update arr i { arr i with mUAV := created hr (arr i).mUAV text }
  if FAILED hr then (false, arr) else
  (true, arr)

/-- A whole texture loop `for (int i = 0; i < n; ++i)` with its early return. -/
def createSlots (d : Device) (f : Field) {n : Nat} (idx : List (Fin n))
    (arr : Fin n → ShaderParams) : Bool × (Fin n → ShaderParams) :=
  idx.foldl (fun acc i => if acc.1 then createSlot d f i acc.2 else acc) (true, arr)

/-- One round of the pressure loop (lines 223-247): texture, SRV, UAV and render
target view. -/
def createPressureSlot (d : Device) (i : Fin 2)
    (st : (Fin 2 → ShaderParams) × (Fin 2 → View)) :
    Bool × (Fin 2 → ShaderParams) × (Fin 2 → View) :=
  let r := createSlot d .pressure i st.1
  if !r.1 then (false, r.2, st.2) else
  let hr := d.CreateRenderTargetView i.val
  let rt := Function.update st.2 i (created hr (st.2 i) (some ⟨.pressure, i.val⟩))
  if FAILED hr then (false, r.2, rt) else
  (true, r.2, rt)

/-- The pressure loop with its early return. -/
def createPressureSlots (d : Device) (st : (Fin 2 → ShaderParams) × (Fin 2 → View)) :
    Bool × (Fin 2 → ShaderParams) × (Fin 2 → View) :=
  ([0, 1] : List (Fin 2)).foldl
    (fun acc i => if acc.1 then createPressureSlot d i acc.2 else acc) (true, st)

/-- `Initialize` (lines 72-298): the returned `bool` and the object as the call
leaves it. -/
def Initialize (d : Device) (c : Fluid3DCalculator) : Bool × Fluid3DCalculator :=
  let result := d.shaderInitialize .forwardAdvection
  if !result then (false, c) else
  let result := d.shaderInitialize .backwardAdvection
  if !result then (false, c) else
  let result := d.shaderInitialize .macCormarckAdvection
  if !result then (false, c) else
  let result := d.shaderInitialize .impulse
  if !result then (false, c) else
  let result := d.shaderInitialize .jacobi
  if !result then (false, c) else
  let result := d.shaderInitialize .divergence
  if !result then (false, c) else
  let result := d.shaderInitialize .subtractGradient
  if !result then (false, c) else
  let result := d.shaderInitialize .buoyancy
  if !result then (false, c) else
  -- velocity shader params
  let r := createSlots d .velocity [0, 1, 2, 3] (fun _ => ⟨none, none⟩)
  let c := { c with mVelocitySP := r.2 }
  if !r.1 then (false, c) else
  -- density shader params
  let r := createSlots d .density [0, 1, 2, 3] (fun _ => ⟨none, none⟩)
  let c := { c with mDensitySP := r.2 }
  if !r.1 then (false, c) else
  -- temperature shader params
  let r := createSlots d .temperature [0, 1, 2, 3] (fun _ => ⟨none, none⟩)
  let c := { c with mTemperatureSP := r.2 }
  if !r.1 then (false, c) else
  -- divergence shader params: the result of CreateTexture3D is overwritten
  -- by the next call before any test
  let hresult := d.CreateTexture3D .divergence 0
  let divergenceText : View := created hresult none (some ⟨.divergence, 0⟩)
  let hresult := d.CreateShaderResourceView .divergence 0
  let c := { c with mDivergenceSP := { mSRV := created hresult none divergenceText, mUAV := none } }
  if FAILED hresult then (false, c) else
  let hresult := d.CreateUnorderedAccessView .divergence 0
  let c := { c with mDivergenceSP :=
    { c.mDivergenceSP with mUAV := created hresult none divergenceText } }
  if FAILED hresult then (false, c) else
  -- pressure shader params and render targets
  let p := createPressureSlots d (fun _ => ⟨none, none⟩, c.mPressureRenderTargets)
  let c := { c with mPressureSP := p.2.1, mPressureRenderTargets := p.2.2 }
  if !p.1 then (false, c) else
  -- constant buffers
  let hresult := d.CreateBuffer .general
  let c := { c with mInputBufferGeneral := created hresult c.mInputBufferGeneral true }
  if FAILED hresult then (false, c) else
  let hresult := d.CreateBuffer .dissipation
  let c := { c with mInputBufferDissipation := created hresult c.mInputBufferDissipation true }
  if FAILED hresult then (false, c) else
  let hresult := d.CreateBuffer .impulse
  let c := { c with mInputBufferImpulse := created hresult c.mInputBufferImpulse true }
  if FAILED hresult then (false, c) else
  -- sampler: the test reads `result`, not `hresult`
  let hresult := d.CreateSamplerState
  let c := { c with mSampleState := created hresult c.mSampleState true }
  if FAILED_bool result then (false, c) else
  (true, c)

/-- A device on which every creation call succeeds. -/
def okDevice : Device :=
  { shaderInitialize := fun _ => true
    CreateTexture3D := fun _ _ => S_OK
    CreateShaderResourceView := fun _ _ => S_OK
    CreateUnorderedAccessView := fun _ _ => S_OK
    CreateRenderTargetView := fun _ => S_OK
    CreateBuffer := fun _ => S_OK
    CreateSamplerState := S_OK }

/-- A device on which every creation call succeeds but `CreateSamplerState`. -/
def samplerFailingDevice : Device :=
  { okDevice with CreateSamplerState := E_FAIL }

/-- A device context on which every `Map` call succeeds. -/
def okContext : MapOracle := fun _ => S_OK

/-- A device context whose fourth `Map` call (the dissipation block of the
density advection) fails. -/
def failingContext : MapOracle :=
  fun n => if n = 3 then E_FAIL else S_OK

/-- The solver right after a successful `Initialize` on `okDevice`, with the two
tunable members set to the given values, and an empty log. -/
def initialSim (mac : Bool) (iterations : Nat) (dimensions : Vector3) : Sim :=
  { self := { (Initialize okDevice (Fluid3DCalculator.new dimensions)).2 with
      macCormackEnabled := mac, jacobiIterations := iterations }
    log := []
    mapCalls := 0 }

/-- The solver as the constructor and a successful `Initialize` on `okDevice`
leave it (MacCormack on, `JACOBI_ITERATIONS` rounds), with an empty log. -/
def defaultSim (dimensions : Vector3) : Sim :=
  { self := (Initialize okDevice (Fluid3DCalculator.new dimensions)).2
    log := []
    mapCalls := 0 }

/-- The state after `k` calls of `Process`, when all of them complete; the state
at the first throw otherwise. -/
def run (ctx : MapOracle) : Nat → Sim → Except Sim Sim
  | 0, w => .ok w
  | k + 1, w => run ctx k w >>= Process ctx

/-! ## Reading the log -/

/-- The compute passes in a log, in dispatch order. -/
def passesOf : List Event → List Pass
  | [] => []
  | .dispatch p :: es => p :: passesOf es
  | _ :: es => passesOf es

/-- The Jacobi passes among a list of passes. -/
def jacobiOf (ps : List Pass) : List Pass :=
  ps.filter (fun p => p.shader = Shader.jacobi)

/-- The calls a run from `w` to `w2` added to the log. -/
def newEvents (w w2 : Sim) : List Event :=
  w2.log.drop w.log.length

/-- The compute passes a run from `w` to `w2` dispatched. -/
def newPasses (w w2 : Sim) : List Pass :=
  passesOf (newEvents w w2)

end Fluid3D

/-! ## Closed forms of the log of one step -/

namespace Fluid3D

/-- The passes one `Advect(target)` call dispatches on a solver in state `c`. -/
def advectPasses (c : Fluid3DCalculator) (q : Quantity) : List Pass :=
  passesOf (Advect q ⟨c, [], 0⟩).log

/-- The passes of `n` rounds of the Jacobi loop, when pressure `READ` holds `r`,
pressure `WRITE` holds `wr` and the divergence buffer is `dv`. -/
def jacobiPasses : Nat → ShaderParams → ShaderParams → ShaderParams → List Pass
  | 0, _, _, _ => []
  | n + 1, r, wr, dv =>
    { shader := .jacobi, inputs := [⟨.pressure, 0, r⟩, ⟨.divergence, 0, dv⟩],
      output := ⟨.pressure, 1, wr⟩ } :: jacobiPasses n wr r dv

/-- The slot that `Process` swaps into `READ` after the three `Advect` calls. -/
def resultBuffer (c : Fluid3DCalculator) : Fin 4 :=
  if c.macCormackEnabled then WRITE else WRITE2

/-- The solver state after lines 301-321 of a completed `Process` call. -/
def advected (c : Fluid3DCalculator) : Fluid3DCalculator :=
  { c with
    mVelocitySP := swap c.mVelocitySP READ (resultBuffer c)
    mTemperatureSP := swap c.mTemperatureSP READ (resultBuffer c)
    mDensitySP := swap c.mDensitySP READ (resultBuffer c) }

/-- The pressure slots after `n` rounds of the Jacobi loop. -/
def pingPong (n : Nat) (arr : Fin 2 → ShaderParams) : Fin 2 → ShaderParams :=
  if n % 2 = 0 then arr else swap arr READ WRITE

/-- The passes of lines 323-336 of `Process`, on the state `a` that the advection
block leaves. -/
def projectionPasses (a : Fluid3DCalculator) : List Pass :=
  [ { shader := .buoyancy
      inputs := [⟨.velocity, 0, a.mVelocitySP READ⟩, ⟨.temperature, 0, a.mTemperatureSP READ⟩,
        ⟨.density, 0, a.mDensitySP READ⟩]
      output := ⟨.velocity, 1, a.mVelocitySP WRITE⟩ },
    { shader := .impulse
      inputs := [⟨.temperature, 0, a.mTemperatureSP READ⟩]
      output := ⟨.temperature, 1, a.mTemperatureSP WRITE⟩ },
    { shader := .impulse
      inputs := [⟨.density, 0, a.mDensitySP READ⟩]
      output := ⟨.density, 1, a.mDensitySP WRITE⟩ },
    { shader := .divergence
      inputs := [⟨.velocity, 0, a.mVelocitySP WRITE⟩]
      output := ⟨.divergence, 0, a.mDivergenceSP⟩ } ]
  ++ jacobiPasses a.jacobiIterations (a.mPressureSP READ) (a.mPressureSP WRITE) a.mDivergenceSP
  ++ [ { shader := .subtractGradient
         inputs := [⟨.velocity, 0, a.mVelocitySP WRITE⟩,
           ⟨.pressure, 0, pingPong a.jacobiIterations a.mPressureSP READ⟩]
         output := ⟨.velocity, 1, a.mVelocitySP READ⟩ } ]

/-- The solver state after lines 323-336 of a completed `Process` call that
entered them in state `a`. -/
def projected (a : Fluid3DCalculator) : Fluid3DCalculator :=
  { a with
    mTemperatureSP := swap a.mTemperatureSP READ WRITE
    mDensitySP := swap a.mDensitySP READ WRITE
    mPressureSP := pingPong a.jacobiIterations a.mPressureSP }

/-- The passes of one completed `Process` call on a solver in state `c`. -/
def stepPasses (c : Fluid3DCalculator) : List Pass :=
  advectPasses c .velocity ++ advectPasses c .temperature ++ advectPasses c .density
    ++ projectionPasses (advected c)

/-- The calls that touch texture memory: compute passes and clears. -/
def isWork : Event → Bool
  | .dispatch _ => true
  | .clear _ => true
  | _ => false

/-- The compute passes and clears of a log, in order. -/
def workOf (es : List Event) : List Event :=
  es.filter isWork

/-- The render target views cleared in a log, in order. -/
def clearedOf : List Event → List View
  | [] => []
  | .clear v :: es => v :: clearedOf es
  | _ :: es => clearedOf es

/-- The compute passes and clears of lines 323-336 of `Process`: the clear of
`CalculatePressureGradient` comes after the fourth pass (divergence). -/
def projectionWork (a : Fluid3DCalculator) : List Event :=
  ((projectionPasses a).take 4).map Event.dispatch
    ++ [Event.clear (a.mPressureRenderTargets READ)]
    ++ ((projectionPasses a).drop 4).map Event.dispatch

/-- Every `Map` call recorded in a log succeeded. -/
def mapsOk (es : List Event) : Prop :=
  ∀ cb hr, Event.map cb hr ∈ es → FAILED hr = false

/-- A log that ends at a failed `Map` call, every earlier `Map` call having
succeeded. -/
def abortedLog (es : List Event) : Prop :=
  ∃ pre cb hr, es = pre ++ [Event.map cb hr] ∧ mapsOk pre ∧ FAILED hr = true

/-- Whether a call threw. -/
def raised : Except Sim Sim → Bool
  | .ok _ => false
  | .error _ => true

/-- The state a call ends in: the returned state, or the state at the throw. -/
def finalSim : Except Sim Sim → Sim
  | .ok w => w
  | .error w => w

/-- The slots of a field hold pairwise distinct textures of that field, each
slot the SRV and the UAV of one texture: what `Initialize` establishes, up to
the order of the slots. -/
def SlotsOf (f : Field) {n : Nat} (arr : Fin n → ShaderParams) : Prop :=
  ∃ π : Fin n → Nat, Function.Injective π ∧
    ∀ i, arr i = ⟨some ⟨f, π i⟩, some ⟨f, π i⟩⟩

/-- The buffer bookkeeping is as a successful `Initialize` leaves it, up to the
order of the slots within each field. -/
structure WellFormed (c : Fluid3DCalculator) : Prop where
  velocity : SlotsOf .velocity c.mVelocitySP
  temperature : SlotsOf .temperature c.mTemperatureSP
  density : SlotsOf .density c.mDensitySP
  pressure : SlotsOf .pressure c.mPressureSP
  divergence : c.mDivergenceSP = ⟨some ⟨.divergence, 0⟩, some ⟨.divergence, 0⟩⟩
  targets : ∀ i, c.mPressureRenderTargets i = some ⟨.pressure, i.val⟩

/-! ## Texture contents and the projection kernels -/

/-- One texel: four components (a scalar field uses `x`). -/
structure Texel where
  x : ℚ
  y : ℚ
  z : ℚ
  w : ℚ
  deriving DecidableEq

/-- The contents of a 3D texture, by cell coordinate. -/
abbrev Volume := Int → Int → Int → Texel

/-- The contents of every texture. -/
abbrev Memory := Texture3D → Volume

/-- The grid: the number of cells along each axis. -/
structure Grid where
  nx : Nat
  ny : Nat
  nz : Nat

/-- A texture that is zero in every cell. -/
def zeroVolume : Volume :=
  fun _ _ _ => ⟨0, 0, 0, 0⟩

/-- A coordinate clamped to the cells `0 .. n - 1` of an axis. -/
def clampIndex (n : Nat) (i : Int) : Int :=
  max 0 (min i ((n : Int) - 1))

/-- A texture read at a cell, the coordinates clamped to the grid. -/
def sample (g : Grid) (v : Volume) (i j k : Int) : Texel :=
  v (clampIndex g.nx i) (clampIndex g.ny j) (clampIndex g.nz k)

/-- Modelled from the spec: the divergence shader (`DivergenceShader`, whose
source is not part of the sources).  Section 4.5: `div = 0.5 * ((vx[i+1] -
vx[i-1]) + (vy[j+1] - vy[j-1]) + (vz[k+1] - vz[k-1]))`, neighbours outside the
grid clamped to it. -/
def computeDivergence (g : Grid) (v : Volume) : Volume :=
  fun i j k =>
    ⟨(1 / 2) * (((sample g v (i + 1) j k).x - (sample g v (i - 1) j k).x)
        + ((sample g v i (j + 1) k).y - (sample g v i (j - 1) k).y)
        + ((sample g v i j (k + 1)).z - (sample g v i j (k - 1)).z)), 0, 0, 0⟩

/-- Modelled from the spec: the Jacobi shader (`JacobiShader`, whose source is
not part of the sources).  Section 4.5: `pressure[i,j,k] = (sum of 6
axis-neighbor pressure values - divergence[i,j,k]) / 6`. -/
def jacobiIterate (g : Grid) (p dv : Volume) : Volume :=
  fun i j k =>
    ⟨((sample g p (i + 1) j k).x + (sample g p (i - 1) j k).x
        + (sample g p i (j + 1) k).x + (sample g p i (j - 1) k).x
        + (sample g p i j (k + 1)).x + (sample g p i j (k - 1)).x
        - (dv i j k).x) / 6, 0, 0, 0⟩

/-- Modelled from the spec: the gradient subtraction shader
(`SubtractGradientShader`, whose source is not part of the sources).  Section
4.5: `velocity -= 0.5 * gradient(pressure)` via central differences. -/
def subtractGradient (g : Grid) (v p : Volume) : Volume :=
  fun i j k =>
    ⟨(v i j k).x - (1 / 2) * ((sample g p (i + 1) j k).x - (sample g p (i - 1) j k).x),
      (v i j k).y - (1 / 2) * ((sample g p i (j + 1) k).x - (sample g p i (j - 1) k).x),
      (v i j k).z - (1 / 2) * ((sample g p i j (k + 1)).x - (sample g p i j (k - 1)).x),
      (v i j k).w⟩

/-- The cells of the grid. -/
def cells (g : Grid) : List (Int × Int × Int) :=
  (List.range g.nx).flatMap fun i =>
    (List.range g.ny).flatMap fun j =>
      (List.range g.nz).map fun k => ((i : Int), (j : Int), (k : Int))

/-- The mean absolute divergence of a velocity field over the grid. -/
def meanAbsDivergence (g : Grid) (v : Volume) : ℚ :=
  ((cells g).map fun c => |(computeDivergence g v c.1 c.2.1 c.2.2).x|).sum
    / ((g.nx * g.ny * g.nz : Nat) : ℚ)

/-- What a shader reads through a view: the texture, or zero through a null
view. -/
def read (m : Memory) : View → Volume
  | some t => m t
  | none => zeroVolume

/-- A write through a view: replaces the texture; discarded through a null
view. -/
def write (m : Memory) : View → Volume → Memory
  | some t, vol => Function.update m t vol
  | none, _ => m

/-- What a compute pass writes, given what it reads: the three projection
shaders as modelled from the specification, every other shader (advection,
impulse, buoyancy) as the arbitrary function `K`. -/
def kernel (g : Grid) (K : Shader → List Volume → Volume) : Shader → List Volume → Volume
  | .divergence, [v] => computeDivergence g v
  | .jacobi, [p, dv] => jacobiIterate g p dv
  | .subtractGradient, [v, p] => subtractGradient g v p
  | sh, ins => K sh ins

/-- The effect of one call of the log on the textures: a compute pass reads its
inputs through their SRVs and writes its output through its UAV, a clear writes
zero through the render target view. -/
def execEvent (g : Grid) (K : Shader → List Volume → Volume) (m : Memory) : Event → Memory
  | .dispatch p =>
    write m p.output.sp.mUAV (kernel g K p.shader (p.inputs.map fun a => read m a.sp.mSRV))
  | .clear rtv => write m rtv zeroVolume
  | _ => m

/-- The effect of a log on the textures. -/
def exec (g : Grid) (K : Shader → List Volume → Volume) (m : Memory) (es : List Event) :
    Memory :=
  es.foldl (execEvent g K) m

/-- The views of one texture, as `Initialize` pairs them in a `ShaderParams`. -/
def viewsOf (t : Texture3D) : ShaderParams :=
  { mSRV := some t, mUAV := some t }

/-- The divergence pass of a step that reads velocity texture `tv`. -/
def divergencePass (tv : Texture3D) : Pass :=
  { shader := .divergence
    inputs := [⟨.velocity, 0, viewsOf tv⟩]
    output := ⟨.divergence, 0, viewsOf ⟨.divergence, 0⟩⟩ }

/-- The gradient subtraction pass that reads velocity texture `tv` and pressure
texture `tp` and writes velocity texture `tw`. -/
def gradientPass (tv tp tw : Texture3D) : Pass :=
  { shader := .subtractGradient
    inputs := [⟨.velocity, 0, viewsOf tv⟩, ⟨.pressure, 0, viewsOf tp⟩]
    output := ⟨.velocity, 1, viewsOf tw⟩ }

/-- Whether a shader belongs to the projection stage (divergence, Jacobi
iteration, gradient subtraction). -/
def isProjection : Shader → Bool
  | .divergence => true
  | .jacobi => true
  | .subtractGradient => true
  | _ => false

/-- A velocity field for a grid of 4 x 1 x 1 cells: the x component is 0, 2, 0, 2
along the x axis, the other components are 0. -/
def stripes : Volume :=
  fun i _ _ => ⟨if i % 2 = 0 then 0 else 2, 0, 0, 0⟩

/-- The velocity field `(i, -j, 0)`. -/
def shear : Volume :=
  fun i j _ => ⟨i, -j, 0, 0⟩

/-- A slot array holds the buffers of another, in some order. -/
def IsPermOf {n : Nat} (arr arr0 : Fin n → ShaderParams) : Prop :=
  ∃ σ : Equiv.Perm (Fin n), arr = arr0 ∘ σ

/-- Every slot array of `c` holds the buffers of the same array of `c0`, in some
order; the divergence field has one buffer, which stays. -/
structure PermutedFrom (c c0 : Fluid3DCalculator) : Prop where
  velocity : IsPermOf c.mVelocitySP c0.mVelocitySP
  temperature : IsPermOf c.mTemperatureSP c0.mTemperatureSP
  density : IsPermOf c.mDensitySP c0.mDensitySP
  pressure : IsPermOf c.mPressureSP c0.mPressureSP
  divergence : c.mDivergenceSP = c0.mDivergenceSP

/-- The output buffer of a pass (the texture behind its UAV) is none of its
input buffers (the textures behind their SRVs). -/
def writesApart (p : Pass) : Prop :=
  ∀ a ∈ p.inputs, a.sp.mSRV ≠ p.output.sp.mUAV

/-- The names of the stages of a step. -/
inductive Stage where
  | advectVelocity
  | advectTemperature
  | advectDensity
  | buoyancy
  | impulseTemperature
  | impulseDensity
  | divergence
  | pressureIterate
  | gradientSubtract
  deriving DecidableEq, Repr

/-- The stage a compute pass belongs to, read off its shader and the field of
its output argument; `none` for a pass that belongs to no stage. -/
def stageOf (p : Pass) : Option Stage :=
  match p.shader, p.output.field with
  | .forwardAdvection, .velocity => some .advectVelocity
  | .backwardAdvection, .velocity => some .advectVelocity
  | .macCormarckAdvection, .velocity => some .advectVelocity
  | .forwardAdvection, .temperature => some .advectTemperature
  | .backwardAdvection, .temperature => some .advectTemperature
  | .macCormarckAdvection, .temperature => some .advectTemperature
  | .forwardAdvection, .density => some .advectDensity
  | .backwardAdvection, .density => some .advectDensity
  | .macCormarckAdvection, .density => some .advectDensity
  | .buoyancy, .velocity => some .buoyancy
  | .impulse, .temperature => some .impulseTemperature
  | .impulse, .density => some .impulseDensity
  | .divergence, .divergence => some .divergence
  | .jacobi, .pressure => some .pressureIterate
  | .subtractGradient, .velocity => some .gradientSubtract
  | _, _ => none

/-- The number of passes of one `Advect` call: three with MacCormack, else one. -/
def advectLength (mac : Bool) : Nat :=
  if mac then 3 else 1

/-- The stage sequence of section 4.6 of the specification, every advection
stage standing once for each pass of its `Advect` call and the pressure
iteration `n` times. -/
def stageSequence (mac : Bool) (n : Nat) : List (Option Stage) :=
  (List.replicate (advectLength mac) Stage.advectVelocity
    ++ List.replicate (advectLength mac) Stage.advectTemperature
    ++ List.replicate (advectLength mac) Stage.advectDensity
    ++ [Stage.buoyancy, Stage.impulseTemperature, Stage.impulseDensity, Stage.divergence]
    ++ List.replicate n Stage.pressureIterate
    ++ [Stage.gradientSubtract]).map some

end Fluid3D

namespace Fluid3D

/-! ## Lemmas: reading the log -/

theorem passesOf_append (xs ys : List Event) :
    passesOf (xs ++ ys) = passesOf xs ++ passesOf ys := by
  induction xs with
  | nil => rfl
  | cons e es ih => cases e <;> simp [passesOf, ih]

theorem passesOf_map_dispatch (ps : List Pass) : passesOf (ps.map Event.dispatch) = ps := by
  induction ps with
  | nil => rfl
  | cons p ps ih => simp [passesOf, ih]

theorem workOf_append (xs ys : List Event) : workOf (xs ++ ys) = workOf xs ++ workOf ys := by
  simp [workOf]

theorem passesOf_workOf (es : List Event) : passesOf (workOf es) = passesOf es := by
  induction es with
  | nil => rfl
  | cons e es ih =>
    simp only [workOf] at ih
    cases e <;> simp [workOf, isWork, passesOf, ih]

theorem mapsOk_append {xs ys : List Event} (hx : mapsOk xs) (hy : mapsOk ys) :
    mapsOk (xs ++ ys) := by
  intro cb hr hmem
  rcases List.mem_append.1 hmem with h | h
  · exact hx cb hr h
  · exact hy cb hr h

theorem newEvents_append (w w2 : Sim) (es : List Event) (h : w2.log = w.log ++ es) :
    newEvents w w2 = es := by
  simp [newEvents, h]

/-! ## Lemmas: the slot indices as numbers -/

@[simp] theorem READ_val4 : ((READ : Fin 4) : Nat) = 0 := rfl

@[simp] theorem WRITE_val4 : ((WRITE : Fin 4) : Nat) = 1 := rfl

@[simp] theorem WRITE2_val4 : ((WRITE2 : Fin 4) : Nat) = 2 := rfl

@[simp] theorem WRITE3_val4 : ((WRITE3 : Fin 4) : Nat) = 3 := rfl

@[simp] theorem READ_val2 : ((READ : Fin 2) : Nat) = 0 := rfl

@[simp] theorem WRITE_val2 : ((WRITE : Fin 2) : Nat) = 1 := rfl

@[simp] theorem READ_ne_WRITE : (READ : Fin 4) ≠ WRITE := by decide

@[simp] theorem READ_ne_WRITE2 : (READ : Fin 4) ≠ WRITE2 := by decide

@[simp] theorem READ_ne_WRITE3 : (READ : Fin 4) ≠ WRITE3 := by decide

@[simp] theorem WRITE_ne_READ : (WRITE : Fin 4) ≠ READ := by decide

@[simp] theorem WRITE_ne_WRITE2 : (WRITE : Fin 4) ≠ WRITE2 := by decide

@[simp] theorem WRITE_ne_WRITE3 : (WRITE : Fin 4) ≠ WRITE3 := by decide

@[simp] theorem WRITE2_ne_READ : (WRITE2 : Fin 4) ≠ READ := by decide

@[simp] theorem WRITE2_ne_WRITE : (WRITE2 : Fin 4) ≠ WRITE := by decide

@[simp] theorem WRITE2_ne_WRITE3 : (WRITE2 : Fin 4) ≠ WRITE3 := by decide

@[simp] theorem WRITE3_ne_READ : (WRITE3 : Fin 4) ≠ READ := by decide

@[simp] theorem WRITE3_ne_WRITE : (WRITE3 : Fin 4) ≠ WRITE := by decide

@[simp] theorem WRITE3_ne_WRITE2 : (WRITE3 : Fin 4) ≠ WRITE2 := by decide

@[simp] theorem READ_ne_WRITE_2 : (READ : Fin 2) ≠ WRITE := by decide

@[simp] theorem WRITE_ne_READ_2 : (WRITE : Fin 2) ≠ READ := by decide

/-! ## Lemmas: the effect of each operation on the three components -/

@[simp] theorem Compute_self (sh : Shader) (i : List Arg) (o : Arg) (w : Sim) :
    (Compute sh i o w).self = w.self := rfl

@[simp] theorem Compute_mapCalls (sh : Shader) (i : List Arg) (o : Arg) (w : Sim) :
    (Compute sh i o w).mapCalls = w.mapCalls := rfl

@[simp] theorem Compute_log (sh : Shader) (i : List Arg) (o : Arg) (w : Sim) :
    (Compute sh i o w).log = w.log ++ [Event.dispatch ⟨sh, i, o⟩] := rfl

@[simp] theorem swapSlots_log (q : Quantity) (i j : Fin 4) (w : Sim) :
    (swapSlots q i j w).log = w.log := rfl

@[simp] theorem swapSlots_mapCalls (q : Quantity) (i j : Fin 4) (w : Sim) :
    (swapSlots q i j w).mapCalls = w.mapCalls := rfl

@[simp] theorem swapSlots_self (q : Quantity) (i j : Fin 4) (w : Sim) :
    (swapSlots q i j w).self = w.self.setSlots q (swap (w.self.slots q) i j) := rfl

@[simp] theorem Advect_self (q : Quantity) (w : Sim) : (Advect q w).self = w.self := by
  cases h : w.self.macCormackEnabled <;> simp [Advect, h]

@[simp] theorem Advect_mapCalls (q : Quantity) (w : Sim) :
    (Advect q w).mapCalls = w.mapCalls := by
  cases h : w.self.macCormackEnabled <;> simp [Advect, h]

theorem Advect_log (q : Quantity) (w : Sim) :
    (Advect q w).log = w.log ++ (advectPasses w.self q).map Event.dispatch := by
  unfold advectPasses Advect
  cases h : w.self.macCormackEnabled <;> simp [h, passesOf]

theorem swap_swap {n : Nat} {α : Type} (arr : Fin n → α) (i j : Fin n) :
    swap (swap arr i j) i j = arr := by
  funext k
  unfold swap
  by_cases h1 : k = i <;> by_cases h2 : k = j <;> simp_all

theorem pingPong_succ (n : Nat) (arr : Fin 2 → ShaderParams) :
    pingPong n (swap arr READ WRITE) = pingPong (n + 1) arr := by
  unfold pingPong
  rcases Nat.mod_two_eq_zero_or_one n with h | h
  · have : (n + 1) % 2 = 1 := by omega
    simp [h, this]
  · have : (n + 1) % 2 = 0 := by omega
    simp [h, this, swap_swap]

theorem jacobiLoop_mapCalls (n : Nat) (w : Sim) : (jacobiLoop n w).mapCalls = w.mapCalls := by
  induction n generalizing w with
  | zero => rfl
  | succ n ih => simp [jacobiLoop, ih, jacobiStep]

theorem jacobiLoop_self (n : Nat) (w : Sim) :
    (jacobiLoop n w).self = { w.self with mPressureSP := pingPong n w.self.mPressureSP } := by
  induction n generalizing w with
  | zero => rfl
  | succ n ih =>
    simp only [jacobiLoop, ih]
    simp [jacobiStep, pingPong_succ]

theorem jacobiLoop_log (n : Nat) (w : Sim) :
    (jacobiLoop n w).log = w.log ++
      (jacobiPasses n (w.self.mPressureSP READ) (w.self.mPressureSP WRITE) w.self.mDivergenceSP).map
        Event.dispatch := by
  induction n generalizing w with
  | zero => simp [jacobiLoop, jacobiPasses]
  | succ n ih =>
    simp only [jacobiLoop]
    rw [ih]
    simp [jacobiStep, Compute, Sim.emit, jacobiPasses, swap, Fluid3DCalculator.pressureArg,
      Fluid3DCalculator.divergenceArg]

/-! ## Lemmas: a completed call and a call that throws -/

theorem setBuffer_bind_ok (ctx : MapOracle) (cb : ConstantBuffer) (data : List ℚ) (w w2 : Sim)
    (f : Sim → Except Sim Sim) :
    (setBuffer ctx cb data w >>= f) = .ok w2 ↔
      FAILED (ctx w.mapCalls) = false ∧
      f { self := w.self, mapCalls := w.mapCalls + 1,
          log := w.log ++ [Event.map cb (ctx w.mapCalls), Event.update cb data] } = .ok w2 := by
  unfold setBuffer
  cases h : FAILED (ctx w.mapCalls) <;> simp [h, Sim.emit, bind, Except.bind]

theorem setBuffer_bind_error (ctx : MapOracle) (cb : ConstantBuffer) (data : List ℚ)
    (w w2 : Sim) (f : Sim → Except Sim Sim) :
    (setBuffer ctx cb data w >>= f) = .error w2 ↔
      (FAILED (ctx w.mapCalls) = true ∧
        w2 = { self := w.self, mapCalls := w.mapCalls + 1,
               log := w.log ++ [Event.map cb (ctx w.mapCalls)] }) ∨
      (FAILED (ctx w.mapCalls) = false ∧
        f { self := w.self, mapCalls := w.mapCalls + 1,
            log := w.log ++ [Event.map cb (ctx w.mapCalls), Event.update cb data] }
          = .error w2) := by
  unfold setBuffer
  cases h : FAILED (ctx w.mapCalls) <;> simp [h, Sim.emit, bind, Except.bind, eq_comm]

theorem bind_eq_ok {x : Except Sim Sim} {f : Sim → Except Sim Sim} {w2 : Sim}
    (h : (x >>= f) = .ok w2) : ∃ w1, x = .ok w1 ∧ f w1 = .ok w2 := by
  cases x with
  | error e => simp [bind, Except.bind] at h
  | ok a => exact ⟨a, rfl, h⟩

theorem bind_eq_error {x : Except Sim Sim} {f : Sim → Except Sim Sim} {w2 : Sim}
    (h : (x >>= f) = .error w2) : x = .error w2 ∨ ∃ w1, x = .ok w1 ∧ f w1 = .error w2 := by
  cases x with
  | error e => left; simpa [bind, Except.bind] using h
  | ok a => exact .inr ⟨a, rfl, h⟩

theorem mapsOk_cons_map {cb : ConstantBuffer} {hr : HRESULT} {es : List Event}
    (h : FAILED hr = false) (hs : mapsOk es) : mapsOk (Event.map cb hr :: es) := by
  intro cb2 hr2 hmem
  rcases List.mem_cons.1 hmem with h2 | h2
  · cases h2; exact h
  · exact hs cb2 hr2 h2

theorem mapsOk_cons_of_ne {e : Event} {es : List Event}
    (h : ∀ cb hr, e ≠ Event.map cb hr) (hs : mapsOk es) : mapsOk (e :: es) := by
  intro cb2 hr2 hmem
  rcases List.mem_cons.1 hmem with h2 | h2
  · exact absurd h2.symm (h cb2 hr2)
  · exact hs cb2 hr2 h2

theorem mapsOk_nil : mapsOk [] := by
  intro cb hr h
  cases h

theorem mapsOk_map_dispatch (ps : List Pass) : mapsOk (ps.map Event.dispatch) := by
  intro cb hr hmem
  simp at hmem

theorem abortedLog_single {cb : ConstantBuffer} {hr : HRESULT} (h : FAILED hr = true) :
    abortedLog [Event.map cb hr] :=
  ⟨[], cb, hr, rfl, mapsOk_nil, h⟩

theorem abortedLog_append {xs ys : List Event} (hx : mapsOk xs) (hy : abortedLog ys) :
    abortedLog (xs ++ ys) := by
  obtain ⟨pre, cb, hr, e, k, f⟩ := hy
  exact ⟨xs ++ pre, cb, hr, by rw [e, List.append_assoc], mapsOk_append hx k, f⟩

theorem abortedLog_cons_map {cb : ConstantBuffer} {hr : HRESULT} {es : List Event}
    (h : FAILED hr = false) (hs : abortedLog es) : abortedLog (Event.map cb hr :: es) :=
  @abortedLog_append [Event.map cb hr] es (mapsOk_cons_map h mapsOk_nil) hs

theorem abortedLog_cons_of_ne {e : Event} {es : List Event}
    (h : ∀ cb hr, e ≠ Event.map cb hr) (hs : abortedLog es) : abortedLog (e :: es) :=
  @abortedLog_append [e] es (mapsOk_cons_of_ne h mapsOk_nil) hs

theorem filter_isWork_map_dispatch (ps : List Pass) :
    (ps.map Event.dispatch).filter isWork = ps.map Event.dispatch := by
  induction ps with
  | nil => rfl
  | cons p ps ih => simp [isWork, ih]

theorem ProcessAdvection_ok (ctx : MapOracle) (w w1 : Sim)
    (h : ProcessAdvection ctx w = .ok w1) :
    w1.self = advected w.self ∧ w1.mapCalls = w.mapCalls + 4 ∧
      (∃ es, w1.log = w.log ++ es ∧ mapsOk es ∧ workOf es =
        (advectPasses w.self .velocity ++ advectPasses w.self .temperature
          ++ advectPasses w.self .density).map Event.dispatch) := by
  simp only [ProcessAdvection,
    SetGeneralBuffer, SetDissipationBuffer, bind_assoc, pure_bind,
    setBuffer_bind_ok, Sim.emit, Advect_self, Advect_mapCalls, Advect_log] at h
  obtain ⟨h0, h1, h2, h3, h⟩ := h
  simp only [pure, Except.pure, Except.ok.injEq] at h
  subst h
  refine ⟨?_, ?_, ?_⟩
  · simp [advected, resultBuffer, Fluid3DCalculator.setSlots, Fluid3DCalculator.slots]
  · simp
  · simp only [swapSlots_log, Advect_log, Advect_self, List.append_assoc,
      List.singleton_append, List.cons_append, List.nil_append]
    refine ⟨_, rfl, ?_, ?_⟩
    · repeat first
        | exact mapsOk_map_dispatch _
        | exact mapsOk_nil
        | apply mapsOk_cons_map (by assumption)
        | apply mapsOk_cons_of_ne (by simp)
        | apply mapsOk_append (mapsOk_map_dispatch _)
    · simp [workOf, isWork, List.filter_append, filter_isWork_map_dispatch]

theorem ProcessProjection_ok (ctx : MapOracle) (w w2 : Sim)
    (h : ProcessProjection ctx w = .ok w2) :
    w2.self = projected w.self ∧ w2.mapCalls = w.mapCalls + 2 ∧
      (∃ es, w2.log = w.log ++ es ∧ mapsOk es ∧ workOf es = projectionWork w.self) := by
  simp only [ProcessProjection, RefreshConstantImpulse, SetImpulseBuffer, bind_assoc, pure_bind,
    setBuffer_bind_ok, Sim.emit, Compute_self, Compute_log, Compute_mapCalls, swapSlots_log,
    swapSlots_self, swapSlots_mapCalls, CalculatePressureGradient, jacobiLoop_self,
    jacobiLoop_log, jacobiLoop_mapCalls] at h
  obtain ⟨h0, h1, h⟩ := h
  simp only [pure, Except.pure, Except.ok.injEq] at h
  subst h
  refine ⟨?_, ?_, ?_⟩
  · simp [projected, Fluid3DCalculator.setSlots, Fluid3DCalculator.slots, jacobiLoop_self,
      swap_swap]
  · simp [jacobiLoop_mapCalls]
  · simp only [swapSlots_log, Compute_log, jacobiLoop_log, List.append_assoc,
      List.singleton_append, List.cons_append, List.nil_append]
    refine ⟨_, rfl, ?_, ?_⟩
    · repeat first
        | exact mapsOk_map_dispatch _
        | exact mapsOk_nil
        | apply mapsOk_cons_map (by assumption)
        | apply mapsOk_cons_of_ne (by simp)
        | apply mapsOk_append (mapsOk_map_dispatch _)
    · simp [workOf, isWork, List.filter_append, filter_isWork_map_dispatch, projectionWork,
        projectionPasses, Fluid3DCalculator.setSlots, Fluid3DCalculator.slots,
        Fluid3DCalculator.arg, Fluid3DCalculator.pressureArg, Fluid3DCalculator.divergenceArg,
        Quantity.toField, swap]

theorem Process_ok (ctx : MapOracle) (w w2 : Sim) (h : Process ctx w = .ok w2) :
    w2.self = projected (advected w.self) ∧ w2.mapCalls = w.mapCalls + 6 ∧
      w2.log = w.log ++ newEvents w w2 ∧ newPasses w w2 = stepPasses w.self ∧
      mapsOk (newEvents w w2) ∧
      workOf (newEvents w w2) =
        (advectPasses w.self .velocity ++ advectPasses w.self .temperature
          ++ advectPasses w.self .density).map Event.dispatch
        ++ projectionWork (advected w.self) := by
  obtain ⟨w1, h1, h2⟩ := bind_eq_ok h
  obtain ⟨s1, m1, es1, l1, k1, p1⟩ := ProcessAdvection_ok ctx w w1 h1
  obtain ⟨s2, m2, es2, l2, k2, p2⟩ := ProcessProjection_ok ctx w1 w2 h2
  have hl : w2.log = w.log ++ (es1 ++ es2) := by rw [l2, l1, List.append_assoc]
  have hn : newEvents w w2 = es1 ++ es2 := newEvents_append w w2 _ hl
  have hw : workOf (newEvents w w2) =
      (advectPasses w.self .velocity ++ advectPasses w.self .temperature
          ++ advectPasses w.self .density).map Event.dispatch
        ++ projectionWork (advected w.self) := by
    rw [hn, workOf_append, p1, p2, s1]
  refine ⟨by rw [s2, s1], by omega, by rw [hn, hl], ?_, by rw [hn]; exact mapsOk_append k1 k2, hw⟩
  rw [newPasses, ← passesOf_workOf, hw, passesOf_append, passesOf_map_dispatch, stepPasses,
    projectionWork, passesOf_append, passesOf_append, passesOf_map_dispatch,
    passesOf_map_dispatch]
  simp [passesOf]

theorem ProcessAdvection_error (ctx : MapOracle) (w w1 : Sim)
    (h : ProcessAdvection ctx w = .error w1) :
    ∃ es, w1.log = w.log ++ es ∧ abortedLog es ∧ passesOf es <+:
      advectPasses w.self .velocity ++ advectPasses w.self .temperature
        ++ advectPasses w.self .density := by
  simp only [ProcessAdvection,
    SetGeneralBuffer, SetDissipationBuffer, bind_assoc, pure_bind,
    setBuffer_bind_error, Sim.emit, Advect_self, Advect_mapCalls, Advect_log] at h
  rcases h with ⟨f0, h⟩ | ⟨h0, ⟨f1, h⟩ | ⟨h1, ⟨f2, h⟩ | ⟨h2, ⟨f3, h⟩ | ⟨-, h⟩⟩⟩⟩
  case inr.intro.inr.intro.inr.intro.inr.intro => simp [pure, Except.pure] at h
  all_goals
    subst h
    simp only [List.append_assoc, List.singleton_append, List.cons_append, List.nil_append]
    refine ⟨_, rfl, ?_, ?_⟩
    · repeat first
        | exact abortedLog_single (by assumption)
        | apply abortedLog_cons_map (by assumption)
        | apply abortedLog_cons_of_ne (by simp)
        | apply abortedLog_append (mapsOk_map_dispatch _)
    · simp [passesOf, passesOf_append, passesOf_map_dispatch]

theorem ProcessProjection_error (ctx : MapOracle) (w w2 : Sim)
    (h : ProcessProjection ctx w = .error w2) :
    ∃ es, w2.log = w.log ++ es ∧ abortedLog es ∧ passesOf es <+: projectionPasses w.self := by
  simp only [ProcessProjection, RefreshConstantImpulse, SetImpulseBuffer, bind_assoc, pure_bind,
    setBuffer_bind_error, Sim.emit, Compute_self, Compute_log, Compute_mapCalls, swapSlots_log,
    swapSlots_self, swapSlots_mapCalls] at h
  rcases h with ⟨f0, h⟩ | ⟨h0, ⟨f1, h⟩ | ⟨-, h⟩⟩
  case inr.intro.inr.intro => simp [pure, Except.pure] at h
  all_goals
    subst h
    simp only [List.append_assoc, List.singleton_append, List.cons_append, List.nil_append]
    refine ⟨_, rfl, ?_, ?_⟩
    · repeat first
        | exact abortedLog_single (by assumption)
        | apply abortedLog_cons_map (by assumption)
        | apply abortedLog_cons_of_ne (by simp)
        | apply abortedLog_append (mapsOk_map_dispatch _)
    · simp [passesOf, projectionPasses, Fluid3DCalculator.arg, Fluid3DCalculator.slots,
        Fluid3DCalculator.setSlots, Quantity.toField]

theorem Process_error (ctx : MapOracle) (w w2 : Sim) (h : Process ctx w = .error w2) :
    w2.log = w.log ++ newEvents w w2 ∧ abortedLog (newEvents w w2) ∧
      newPasses w w2 <+: stepPasses w.self := by
  rcases bind_eq_error h with h1 | ⟨w1, h1, h2⟩
  · obtain ⟨es, l, k, p⟩ := ProcessAdvection_error ctx w w2 h1
    have hn : newEvents w w2 = es := newEvents_append w w2 _ l
    refine ⟨by rw [hn, l], by rw [hn]; exact k, ?_⟩
    rw [newPasses, hn, stepPasses]
    exact p.trans (List.prefix_append _ _)
  · obtain ⟨s1, -, es1, l1, k1, p1⟩ := ProcessAdvection_ok ctx w w1 h1
    obtain ⟨es2, l2, k2, p2⟩ := ProcessProjection_error ctx w1 w2 h2
    have hl : w2.log = w.log ++ (es1 ++ es2) := by rw [l2, l1, List.append_assoc]
    have hn : newEvents w w2 = es1 ++ es2 := newEvents_append w w2 _ hl
    refine ⟨by rw [hn, hl], by rw [hn]; exact abortedLog_append k1 k2, ?_⟩
    rw [newPasses, hn, passesOf_append, ← passesOf_workOf es1, p1, passesOf_map_dispatch,
      stepPasses, ← s1]
    exact (List.prefix_append_right_inj _).2 p2

theorem abortedLog_nothing_after {es : List Event} (h : abortedLog es)
    (pre : List Event) (cb : ConstantBuffer) (hr : HRESULT) (post : List Event)
    (e : es = pre ++ Event.map cb hr :: post) (f : FAILED hr = true) : post = [] := by
  obtain ⟨pre2, cb2, hr2, e2, k, -⟩ := h
  rw [e2] at e
  rcases List.append_eq_append_iff.1 e with ⟨a, -, hb⟩ | ⟨c, hc, hd⟩
  · cases a with
    | nil =>
      simp only [List.nil_append, List.cons.injEq] at hb
      exact hb.2.symm
    | cons x a =>
      have hlen := congrArg List.length hb
      simp at hlen
  · cases c with
    | nil =>
      simp only [List.nil_append, List.cons.injEq] at hd
      exact hd.2
    | cons x c =>
      simp only [List.cons_append, List.cons.injEq] at hd
      have hmem : Event.map cb hr ∈ pre2 := by
        rw [hc, ← hd.1]
        simp
      have := k cb hr hmem
      rw [f] at this
      cases this

theorem ProcessAdvection_passes (ctx : MapOracle) (w w1 : Sim)
    (h : ProcessAdvection ctx w = .ok w1) :
    newPasses w w1 = advectPasses w.self .velocity ++ advectPasses w.self .temperature
      ++ advectPasses w.self .density := by
  obtain ⟨-, -, es, l, -, p⟩ := ProcessAdvection_ok ctx w w1 h
  rw [newPasses, newEvents_append w w1 es l, ← passesOf_workOf, p, passesOf_map_dispatch]

theorem advectPasses_off (c : Fluid3DCalculator) (q : Quantity)
    (h : c.macCormackEnabled = false) :
    advectPasses c q =
      [⟨.forwardAdvection, [c.arg .velocity READ, c.arg q READ], c.arg q WRITE2⟩] := by
  simp [advectPasses, Advect, h, passesOf]

theorem advectPasses_on (c : Fluid3DCalculator) (q : Quantity)
    (h : c.macCormackEnabled = true) :
    advectPasses c q =
      [⟨.forwardAdvection, [c.arg .velocity READ, c.arg q READ], c.arg q WRITE2⟩,
       ⟨.backwardAdvection, [c.arg .velocity READ, c.arg q WRITE2], c.arg q WRITE3⟩,
       ⟨.macCormarckAdvection,
         [c.arg .velocity READ, c.arg q WRITE2, c.arg q WRITE3, c.arg q READ],
         c.arg q WRITE⟩] := by
  simp [advectPasses, Advect, h, passesOf]

theorem jacobiPasses_field (n : Nat) (r wr dv : ShaderParams) :
    ∀ p ∈ jacobiPasses n r wr dv, p.output.field = .pressure ∧ p.shader = .jacobi := by
  induction n generalizing r wr with
  | zero => intro p hp; cases hp
  | succ n ih =>
    intro p hp
    rcases List.mem_cons.1 hp with rfl | hp
    · exact ⟨rfl, rfl⟩
    · exact ih _ _ p hp

theorem jacobiPasses_output (n : Nat) (r wr dv : ShaderParams) :
    ∀ p ∈ jacobiPasses n r wr dv, p.output.sp = r ∨ p.output.sp = wr := by
  induction n generalizing r wr with
  | zero => intro p hp; cases hp
  | succ n ih =>
    intro p hp
    rcases List.mem_cons.1 hp with rfl | hp
    · exact .inr rfl
    · exact (ih _ _ p hp).symm

theorem jacobiPasses_countP_zero (n : Nat) (r wr dv : ShaderParams) (v : View)
    (hr : r.mUAV ≠ v) (hw : wr.mUAV ≠ v) :
    (jacobiPasses n r wr dv).countP (fun p => p.output.sp.mUAV = v) = 0 := by
  rw [List.countP_eq_zero]
  intro p hp
  rcases jacobiPasses_output n r wr dv p hp with h | h <;> simp [h, hr, hw]

theorem WellFormed_initialSim (mac : Bool) (n : Nat) (d : Vector3) :
    WellFormed (initialSim mac n d).self where
  velocity := ⟨fun i => i.val, Fin.val_injective, by intro i; fin_cases i <;> rfl⟩
  temperature := ⟨fun i => i.val, Fin.val_injective, by intro i; fin_cases i <;> rfl⟩
  density := ⟨fun i => i.val, Fin.val_injective, by intro i; fin_cases i <;> rfl⟩
  pressure := ⟨fun i => i.val, Fin.val_injective, by intro i; fin_cases i <;> rfl⟩
  divergence := rfl
  targets := by intro i; fin_cases i <;> rfl

/-! ## Lemmas: well-formedness along a run -/

theorem swap_injective {n : Nat} {α : Type} (arr : Fin n → α) (i j : Fin n)
    (h : Function.Injective arr) : Function.Injective (swap arr i j) := by
  have e : swap arr i j = arr ∘ (Equiv.swap i j) := by
    funext k
    simp only [swap, Function.comp, Equiv.swap_apply_def]
    split_ifs <;> rfl
  rw [e]
  exact h.comp (Equiv.swap i j).injective

theorem SlotsOf_swap {f : Field} {n : Nat} {arr : Fin n → ShaderParams} (i j : Fin n)
    (h : SlotsOf f arr) : SlotsOf f (swap arr i j) := by
  obtain ⟨π, hi, hπ⟩ := h
  refine ⟨swap π i j, swap_injective π i j hi, ?_⟩
  intro k
  simp only [swap]
  split_ifs <;> exact hπ _

theorem SlotsOf_pingPong {n : Nat} {arr : Fin 2 → ShaderParams}
    (h : SlotsOf .pressure arr) : SlotsOf .pressure (pingPong n arr) := by
  unfold pingPong
  split_ifs
  · exact h
  · exact SlotsOf_swap _ _ h

theorem WellFormed_step (c : Fluid3DCalculator) (h : WellFormed c) :
    WellFormed (projected (advected c)) where
  velocity := SlotsOf_swap _ _ h.velocity
  temperature := SlotsOf_swap _ _ (SlotsOf_swap _ _ h.temperature)
  density := SlotsOf_swap _ _ (SlotsOf_swap _ _ h.density)
  pressure := SlotsOf_pingPong h.pressure
  divergence := h.divergence
  targets := h.targets

theorem run_succ_ok {ctx : MapOracle} {k : Nat} {w0 w2 : Sim}
    (h : run ctx (k + 1) w0 = .ok w2) : ∃ w, run ctx k w0 = .ok w ∧ Process ctx w = .ok w2 :=
  bind_eq_ok h

theorem pingPong_pingPong (a b : Nat) (arr : Fin 2 → ShaderParams) :
    pingPong a (pingPong b arr) = pingPong (a + b) arr := by
  unfold pingPong
  rcases Nat.mod_two_eq_zero_or_one a with ha | ha <;>
    rcases Nat.mod_two_eq_zero_or_one b with hb | hb
  · have : (a + b) % 2 = 0 := by omega
    simp [ha, hb, this]
  · have : (a + b) % 2 = 1 := by omega
    simp [ha, hb, this]
  · have : (a + b) % 2 = 1 := by omega
    simp [ha, hb, this]
  · have : (a + b) % 2 = 0 := by omega
    simp [ha, hb, this, swap_swap]

theorem run_invariant (ctx : MapOracle) (mac : Bool) (n : Nat) (d : Vector3) (k : Nat)
    (w : Sim) (h : run ctx k (initialSim mac n d) = .ok w) :
    WellFormed w.self ∧ w.self.jacobiIterations = n ∧ w.self.macCormackEnabled = mac ∧
      w.self.mPressureSP = pingPong (n * k) (initialSim mac n d).self.mPressureSP := by
  induction k generalizing w with
  | zero =>
    simp only [run, Except.ok.injEq] at h
    subst h
    exact ⟨WellFormed_initialSim mac n d, rfl, rfl, rfl⟩
  | succ k ih =>
    obtain ⟨w1, h1, h2⟩ := run_succ_ok h
    obtain ⟨hw, hn, hm, hp⟩ := ih w1 h1
    have hs := (Process_ok ctx w1 w h2).1
    rw [hs]
    refine ⟨WellFormed_step _ hw, hn, hm, ?_⟩
    show pingPong (advected w1.self).jacobiIterations (advected w1.self).mPressureSP = _
    have e1 : (advected w1.self).jacobiIterations = n := hn
    have e2 : (advected w1.self).mPressureSP = w1.self.mPressureSP := rfl
    rw [e1, e2, hp, pingPong_pingPong, Nat.mul_succ, Nat.add_comm]

theorem run_cold_start (ctx : MapOracle) (mac : Bool) (n : Nat) (d : Vector3) (k : Nat)
    (w : Sim) (h : run ctx k (initialSim mac n d) = .ok w) (he : n * k % 2 = 0) :
    w.self.mPressureSP READ = viewsOf ⟨.pressure, 0⟩ := by
  rw [(run_invariant ctx mac n d k w h).2.2.2, pingPong, if_pos he]
  rfl

/-! ## Lemmas: texture contents -/

theorem exec_append (g : Grid) (K : Shader → List Volume → Volume) (m : Memory)
    (xs ys : List Event) : exec g K m (xs ++ ys) = exec g K (exec g K m xs) ys := by
  simp [exec, List.foldl_append]

theorem exec_workOf (g : Grid) (K : Shader → List Volume → Volume) (m : Memory)
    (es : List Event) : exec g K m (workOf es) = exec g K m es := by
  induction es generalizing m with
  | nil => rfl
  | cons e es ih =>
    cases e <;> simp [workOf, isWork, exec, execEvent] <;> exact ih _

theorem read_write_same (m : Memory) (t : Texture3D) (vol : Volume) :
    read (write m (some t) vol) (some t) = vol := by
  simp [read, write]

theorem read_write_of_ne (m : Memory) (t u : Texture3D) (vol : Volume) (h : u ≠ t) :
    read (write m (some t) vol) (some u) = read m (some u) := by
  simp [read, write, Function.update_noteq h]

theorem sample_zeroVolume (g : Grid) (i j k : Int) : sample g zeroVolume i j k = ⟨0, 0, 0, 0⟩ :=
  rfl

theorem subtractGradient_zero (g : Grid) (v : Volume) : subtractGradient g v zeroVolume = v := by
  funext i j k
  simp [subtractGradient, sample_zeroVolume]

theorem jacobiOf_advectPasses (c : Fluid3DCalculator) (q : Quantity) :
    jacobiOf (advectPasses c q) = [] := by
  cases h : c.macCormackEnabled
  · simp [advectPasses_off _ _ h, jacobiOf]
  · simp [advectPasses_on _ _ h, jacobiOf]

theorem zero_iterations_work (ctx : MapOracle) (w w2 : Sim) (hw : WellFormed w.self)
    (hn : w.self.jacobiIterations = 0)
    (hp : w.self.mPressureSP READ = viewsOf ⟨.pressure, 0⟩)
    (h : Process ctx w = .ok w2) :
    ∃ pre tv tw, tv.field = .velocity ∧ tw.field = .velocity ∧
      jacobiOf (passesOf pre) = [] ∧
      workOf (newEvents w w2) = pre ++ [Event.dispatch (divergencePass tv),
        Event.clear (some ⟨.pressure, 0⟩),
        Event.dispatch (gradientPass tv ⟨.pressure, 0⟩ tw)] ∧
      w2.self.mVelocitySP READ = viewsOf tw := by
  obtain ⟨hs, -, -, -, -, hwork⟩ := Process_ok ctx w w2 h
  obtain ⟨π, -, hπ⟩ := SlotsOf_swap READ (resultBuffer w.self) hw.velocity
  have hv : ∀ i, (advected w.self).mVelocitySP i = viewsOf ⟨.velocity, π i⟩ := hπ
  have hn2 : (advected w.self).jacobiIterations = 0 := hn
  have hp2 : (advected w.self).mPressureSP READ = viewsOf ⟨.pressure, 0⟩ := hp
  have hd2 : (advected w.self).mDivergenceSP = viewsOf ⟨.divergence, 0⟩ := hw.divergence
  have ht2 : (advected w.self).mPressureRenderTargets READ = some ⟨.pressure, 0⟩ :=
    hw.targets READ
  refine ⟨(advectPasses w.self .velocity ++ advectPasses w.self .temperature
      ++ advectPasses w.self .density).map Event.dispatch
      ++ ((projectionPasses (advected w.self)).take 3).map Event.dispatch,
    ⟨.velocity, π WRITE⟩, ⟨.velocity, π READ⟩, rfl, rfl, ?_, ?_, ?_⟩
  · have e1 := jacobiOf_advectPasses w.self .velocity
    have e2 := jacobiOf_advectPasses w.self .temperature
    have e3 := jacobiOf_advectPasses w.self .density
    unfold jacobiOf at e1 e2 e3
    rw [passesOf_append, passesOf_map_dispatch, passesOf_map_dispatch, jacobiOf,
      List.filter_append, List.filter_append, List.filter_append, e1, e2, e3]
    simp [projectionPasses]
  · rw [hwork, projectionWork, projectionPasses, hn2, ht2]
    simp [jacobiPasses, pingPong, hv, hp2, hd2, divergencePass, gradientPass]
  · rw [hs]
    exact hv READ

theorem gradient_after_clear (g : Grid) (K : Shader → List Volume → Volume) (m : Memory)
    (tv tw : Texture3D) (hv : tv.field = .velocity) :
    read (exec g K m [Event.clear (some ⟨.pressure, 0⟩),
        Event.dispatch (gradientPass tv ⟨.pressure, 0⟩ tw)]) (some tw) =
      read (exec g K m [Event.clear (some ⟨.pressure, 0⟩)]) (some tv) := by
  have hne : tv ≠ ⟨.pressure, 0⟩ := by
    intro e
    rw [e] at hv
    cases hv
  simp only [exec, List.foldl_cons, List.foldl_nil, execEvent, gradientPass, viewsOf, List.map,
    kernel]
  rw [read_write_same, read_write_same, subtractGradient_zero]

theorem divergence_keeps_velocity (g : Grid) (K : Shader → List Volume → Volume) (m : Memory)
    (tv : Texture3D) (hv : tv.field = .velocity) :
    read (exec g K m [Event.dispatch (divergencePass tv),
        Event.clear (some ⟨.pressure, 0⟩)]) (some tv) = read m (some tv) := by
  have hne : tv ≠ ⟨.pressure, 0⟩ := by
    intro e
    rw [e] at hv
    cases hv
  have hne2 : tv ≠ ⟨.divergence, 0⟩ := by
    intro e
    rw [e] at hv
    cases hv
  simp only [exec, List.foldl_cons, List.foldl_nil, execEvent, divergencePass, viewsOf]
  rw [read_write_of_ne _ _ _ _ hne, read_write_of_ne _ _ _ _ hne2]

theorem zero_iterations_memory (ctx : MapOracle) (w w2 : Sim) (hw : WellFormed w.self)
    (hn : w.self.jacobiIterations = 0)
    (hp : w.self.mPressureSP READ = viewsOf ⟨.pressure, 0⟩)
    (h : Process ctx w = .ok w2) :
    ∃ pre tv tw, jacobiOf (passesOf pre) = [] ∧
      workOf (newEvents w w2) = pre ++ [Event.dispatch (divergencePass tv),
        Event.clear (some ⟨.pressure, 0⟩),
        Event.dispatch (gradientPass tv ⟨.pressure, 0⟩ tw)] ∧
      w2.self.mVelocitySP READ = viewsOf tw ∧
      ∀ (g : Grid) (K : Shader → List Volume → Volume) (m : Memory),
        read (exec g K m (newEvents w w2)) (some tw) =
          read (exec g K m (pre ++ [Event.dispatch (divergencePass tv),
            Event.clear (some ⟨.pressure, 0⟩)])) (some tv) ∧
        read (exec g K m (newEvents w w2)) (some tw) = read (exec g K m pre) (some tv) := by
  obtain ⟨pre, tv, tw, hv, -, hj, hwork, hr⟩ := zero_iterations_work ctx w w2 hw hn hp h
  refine ⟨pre, tv, tw, hj, hwork, hr, ?_⟩
  intro g K m
  have e1 : read (exec g K m (newEvents w w2)) (some tw) =
      read (exec g K m (pre ++ [Event.dispatch (divergencePass tv),
        Event.clear (some ⟨.pressure, 0⟩)])) (some tv) := by
    rw [← exec_workOf, hwork]
    have : pre ++ [Event.dispatch (divergencePass tv), Event.clear (some ⟨.pressure, 0⟩),
        Event.dispatch (gradientPass tv ⟨.pressure, 0⟩ tw)] =
        (pre ++ [Event.dispatch (divergencePass tv)]) ++ [Event.clear (some ⟨.pressure, 0⟩),
          Event.dispatch (gradientPass tv ⟨.pressure, 0⟩ tw)] := by simp
    rw [this, exec_append, gradient_after_clear g K _ tv tw hv, ← exec_append]
    simp
  refine ⟨e1, ?_⟩
  rw [e1, exec_append, divergence_keeps_velocity g K _ tv hv]

/-! ## Lemmas: the projection kernels on the cells of the grid -/

theorem mem_cells (g : Grid) (i j k : Int) :
    (i, j, k) ∈ cells g ↔ 0 ≤ i ∧ i < g.nx ∧ 0 ≤ j ∧ j < g.ny ∧ 0 ≤ k ∧ k < g.nz := by
  simp only [cells, List.mem_flatMap, List.mem_map, List.mem_range, Prod.mk.injEq]
  simp only [List.bind_eq_flatMap, List.mem_flatMap, List.mem_range, List.pure_def,
    List.mem_singleton]
  constructor
  · rintro ⟨a, ha, b, hb, c, ⟨d, hd, rfl⟩, h1, h2, h3⟩
    omega
  · rintro ⟨h1, h2, h3, h4, h5, h6⟩
    exact ⟨i.toNat, by omega, j.toNat, by omega, k, ⟨k.toNat, by omega, by omega⟩, by omega,
      by omega, rfl⟩

theorem clampIndex_mem (n : Nat) (hn : 0 < n) (i : Int) :
    0 ≤ clampIndex n i ∧ clampIndex n i < n := by
  unfold clampIndex
  omega

theorem sample_mem_cells (g : Grid) (i0 j0 k0 : Int) (h : (i0, j0, k0) ∈ cells g)
    (i j k : Int) :
    (clampIndex g.nx i, clampIndex g.ny j, clampIndex g.nz k) ∈ cells g := by
  rw [mem_cells] at h ⊢
  have h1 := clampIndex_mem g.nx (by omega) i
  have h2 := clampIndex_mem g.ny (by omega) j
  have h3 := clampIndex_mem g.nz (by omega) k
  omega

theorem jacobiIterate_zero_on_cells (g : Grid) (p dv : Volume)
    (hp : ∀ c ∈ cells g, (p c.1 c.2.1 c.2.2).x = 0)
    (hd : ∀ c ∈ cells g, (dv c.1 c.2.1 c.2.2).x = 0) :
    ∀ c ∈ cells g, (jacobiIterate g p dv c.1 c.2.1 c.2.2).x = 0 := by
  rintro ⟨i, j, k⟩ hc
  have hs : ∀ a b c : Int, (sample g p a b c).x = 0 := fun a b c =>
    hp _ (sample_mem_cells g i j k hc a b c)
  have := hd _ hc
  simp only [jacobiIterate, hs] at this ⊢
  simp [this]

theorem jacobi_iterate_zero_on_cells (g : Grid) (dv : Volume)
    (hd : ∀ c ∈ cells g, (dv c.1 c.2.1 c.2.2).x = 0) (n : Nat) :
    ∀ c ∈ cells g, (((fun p => jacobiIterate g p dv)^[n] zeroVolume) c.1 c.2.1 c.2.2).x = 0 := by
  induction n with
  | zero => intro c _; rfl
  | succ n ih =>
    rw [Function.iterate_succ_apply']
    exact jacobiIterate_zero_on_cells g _ dv ih hd

theorem subtractGradient_zero_on_cells (g : Grid) (v p : Volume)
    (hp : ∀ c ∈ cells g, (p c.1 c.2.1 c.2.2).x = 0) :
    ∀ c ∈ cells g, subtractGradient g v p c.1 c.2.1 c.2.2 = v c.1 c.2.1 c.2.2 := by
  rintro ⟨i, j, k⟩ hc
  have hs : ∀ a b c : Int, (sample g p a b c).x = 0 := fun a b c =>
    hp _ (sample_mem_cells g i j k hc a b c)
  simp [subtractGradient, hs]

theorem computeDivergence_congr_cells (g : Grid) (v v2 : Volume)
    (h : ∀ c ∈ cells g, v c.1 c.2.1 c.2.2 = v2 c.1 c.2.1 c.2.2) :
    ∀ c ∈ cells g, computeDivergence g v c.1 c.2.1 c.2.2
      = computeDivergence g v2 c.1 c.2.1 c.2.2 := by
  rintro ⟨i, j, k⟩ hc
  have hs : ∀ a b c : Int, sample g v a b c = sample g v2 a b c := fun a b c =>
    h _ (sample_mem_cells g i j k hc a b c)
  simp [computeDivergence, hs]

theorem meanAbsDivergence_congr_cells (g : Grid) (v v2 : Volume)
    (h : ∀ c ∈ cells g, v c.1 c.2.1 c.2.2 = v2 c.1 c.2.1 c.2.2) :
    meanAbsDivergence g v = meanAbsDivergence g v2 := by
  unfold meanAbsDivergence
  congr 2
  apply List.map_congr_left
  intro c hc
  rw [computeDivergence_congr_cells g v v2 h c hc]

/-! ## Lemmas: the projection stage of a cold-started step -/

theorem write_const (v : Volume) (u : View) : write (fun _ => v) u v = fun _ => v := by
  cases u with
  | none => rfl
  | some t =>
    funext s
    simp only [write, Function.update_apply]
    split_ifs <;> rfl

theorem kernel_of_not_projection (g : Grid) (K : Shader → List Volume → Volume) (sh : Shader)
    (ins : List Volume) (h : isProjection sh = false) : kernel g K sh ins = K sh ins := by
  cases sh <;> first | rfl | cases h

theorem exec_const (g : Grid) (v : Volume) (es : List Event)
    (h : ∀ e ∈ es, ∃ p, e = Event.dispatch p ∧ isProjection p.shader = false) :
    exec g (fun _ _ => v) (fun _ => v) es = fun _ => v := by
  induction es with
  | nil => rfl
  | cons e es ih =>
    obtain ⟨p, rfl, hp⟩ := h e (List.mem_cons_self _ _)
    show exec g _ (execEvent g _ _ (Event.dispatch p)) es = _
    have : execEvent g (fun _ _ => v) (fun _ => v) (Event.dispatch p) = fun _ => v := by
      simp only [execEvent]
      rw [kernel_of_not_projection g _ _ _ hp]
      exact write_const v _
    rw [this]
    exact ih fun e he => h e (List.mem_cons_of_mem _ he)

theorem exec_jacobi (g : Grid) (K : Shader → List Volume → Volume) (n : Nat)
    (r wr : Texture3D) (m : Memory) (hr : r.field = .pressure) (hwr : wr.field = .pressure) :
    (∀ t : Texture3D, t.field ≠ .pressure →
      exec g K m ((jacobiPasses n (viewsOf r) (viewsOf wr) (viewsOf ⟨.divergence, 0⟩)).map
        Event.dispatch) t = m t) ∧
    exec g K m ((jacobiPasses n (viewsOf r) (viewsOf wr) (viewsOf ⟨.divergence, 0⟩)).map
      Event.dispatch) (if n % 2 = 0 then r else wr)
      = (fun p => jacobiIterate g p (m ⟨.divergence, 0⟩))^[n] (m r) := by
  induction n generalizing r wr m with
  | zero => exact ⟨fun _ _ => rfl, rfl⟩
  | succ n ih =>
    have hne : (⟨.divergence, 0⟩ : Texture3D) ≠ wr := by
      intro e
      rw [← e] at hwr
      cases hwr
    have step : exec g K m ((jacobiPasses (n + 1) (viewsOf r) (viewsOf wr)
        (viewsOf ⟨.divergence, 0⟩)).map Event.dispatch) =
        exec g K (Function.update m wr (jacobiIterate g (m r) (m ⟨.divergence, 0⟩)))
          ((jacobiPasses n (viewsOf wr) (viewsOf r) (viewsOf ⟨.divergence, 0⟩)).map
            Event.dispatch) := by
      simp only [jacobiPasses, List.map_cons, exec, List.foldl_cons, execEvent, viewsOf,
        List.map_nil, read, kernel, write]
    rw [step]
    obtain ⟨ih1, ih2⟩ := ih wr r
      (Function.update m wr (jacobiIterate g (m r) (m ⟨.divergence, 0⟩))) hwr hr
    constructor
    · intro t ht
      rw [ih1 t ht]
      apply Function.update_noteq
      intro e
      rw [e] at ht
      exact ht hwr
    · have e : (if (n + 1) % 2 = 0 then r else wr) = (if n % 2 = 0 then wr else r) := by
        rcases Nat.mod_two_eq_zero_or_one n with h | h
        · have : (n + 1) % 2 = 1 := by omega
          simp [h, this]
        · have : (n + 1) % 2 = 0 := by omega
          simp [h, this]
      rw [e, ih2, Function.update_same, Function.update_noteq hne, Function.iterate_succ_apply]

theorem advectPasses_not_projection (c : Fluid3DCalculator) (q : Quantity) :
    ∀ p ∈ advectPasses c q, isProjection p.shader = false := by
  cases h : c.macCormackEnabled
  · rw [advectPasses_off _ _ h]
    intro p hp
    simp only [List.mem_singleton] at hp
    subst hp
    rfl
  · rw [advectPasses_on _ _ h]
    intro p hp
    simp only [List.mem_cons, List.mem_singleton, List.not_mem_nil, or_false] at hp
    rcases hp with rfl | rfl | rfl <;> rfl

theorem before_projection_plain (c : Fluid3DCalculator) :
    ∀ e ∈ (advectPasses c .velocity ++ advectPasses c .temperature
        ++ advectPasses c .density).map Event.dispatch
        ++ ((projectionPasses (advected c)).take 3).map Event.dispatch,
      ∃ p, e = Event.dispatch p ∧ isProjection p.shader = false := by
  intro e he
  rcases List.mem_append.1 he with h | h
  · obtain ⟨p, hp, rfl⟩ := List.mem_map.1 h
    refine ⟨p, rfl, ?_⟩
    rcases List.mem_append.1 hp with h2 | h2
    · rcases List.mem_append.1 h2 with h3 | h3
      · exact advectPasses_not_projection c _ p h3
      · exact advectPasses_not_projection c _ p h3
    · exact advectPasses_not_projection c _ p h2
  · obtain ⟨p, hp, rfl⟩ := List.mem_map.1 h
    refine ⟨p, rfl, ?_⟩
    simp only [projectionPasses, List.cons_append, List.take_succ_cons, List.take_zero,
      List.mem_cons, List.mem_singleton, List.not_mem_nil, or_false] at hp
    rcases hp with rfl | rfl | rfl <;> rfl

theorem cold_start_work (ctx : MapOracle) (w w2 : Sim) (hw : WellFormed w.self)
    (hp : w.self.mPressureSP READ = viewsOf ⟨.pressure, 0⟩)
    (h : Process ctx w = .ok w2) :
    ∃ pre tv tw p1, tv.field = .velocity ∧ tw.field = .velocity ∧ p1.field = .pressure ∧
      (∀ e ∈ pre, ∃ p, e = Event.dispatch p ∧ isProjection p.shader = false) ∧
      workOf (newEvents w w2) = pre ++ [Event.dispatch (divergencePass tv),
        Event.clear (some ⟨.pressure, 0⟩)]
        ++ (jacobiPasses w.self.jacobiIterations (viewsOf ⟨.pressure, 0⟩) (viewsOf p1)
            (viewsOf ⟨.divergence, 0⟩)).map Event.dispatch
        ++ [Event.dispatch (gradientPass tv
            (if w.self.jacobiIterations % 2 = 0 then ⟨.pressure, 0⟩ else p1) tw)] ∧
      w2.self.mVelocitySP READ = viewsOf tw := by
  obtain ⟨hs, -, -, -, -, hwork⟩ := Process_ok ctx w w2 h
  obtain ⟨π, -, hπ⟩ := SlotsOf_swap READ (resultBuffer w.self) hw.velocity
  obtain ⟨ρ, -, hρ⟩ := hw.pressure
  have hv : ∀ i, (advected w.self).mVelocitySP i = viewsOf ⟨.velocity, π i⟩ := hπ
  have hp2 : (advected w.self).mPressureSP READ = viewsOf ⟨.pressure, 0⟩ := hp
  have hp3 : (advected w.self).mPressureSP WRITE = viewsOf ⟨.pressure, ρ WRITE⟩ := hρ WRITE
  have hd2 : (advected w.self).mDivergenceSP = viewsOf ⟨.divergence, 0⟩ := hw.divergence
  have ht2 : (advected w.self).mPressureRenderTargets READ = some ⟨.pressure, 0⟩ :=
    hw.targets READ
  have hn2 : (advected w.self).jacobiIterations = w.self.jacobiIterations := rfl
  refine ⟨(advectPasses w.self .velocity ++ advectPasses w.self .temperature
      ++ advectPasses w.self .density).map Event.dispatch
      ++ ((projectionPasses (advected w.self)).take 3).map Event.dispatch,
    ⟨.velocity, π WRITE⟩, ⟨.velocity, π READ⟩, ⟨.pressure, ρ WRITE⟩, rfl, rfl, rfl,
    before_projection_plain w.self, ?_, ?_⟩
  · rw [hwork, projectionWork, projectionPasses, hn2, ht2]
    have hpp : pingPong w.self.jacobiIterations (advected w.self).mPressureSP READ =
        viewsOf (if w.self.jacobiIterations % 2 = 0 then ⟨.pressure, 0⟩
          else ⟨.pressure, ρ WRITE⟩) := by
      unfold pingPong
      split_ifs
      · exact hp2
      · simpa [swap] using hp3
    simp [hpp, hv, hp2, hp3, hd2, divergencePass, gradientPass]
  · rw [hs]
    exact hv READ

theorem cold_start_projection (ctx : MapOracle) (w w2 : Sim) (hw : WellFormed w.self)
    (hp : w.self.mPressureSP READ = viewsOf ⟨.pressure, 0⟩)
    (h : Process ctx w = .ok w2) :
    ∃ pre tv post,
      workOf (newEvents w w2) = pre ++ Event.dispatch (divergencePass tv) :: post ∧
      (∀ e ∈ pre, ∃ p, e = Event.dispatch p ∧ isProjection p.shader = false) ∧
      ∀ (g : Grid) (K : Shader → List Volume → Volume) (m : Memory),
        read (exec g K m (newEvents w w2)) (w2.self.mVelocitySP READ).mSRV =
          subtractGradient g (read (exec g K m pre) (some tv))
            ((fun p => jacobiIterate g p
                (computeDivergence g (read (exec g K m pre) (some tv))))^[w.self.jacobiIterations]
              zeroVolume) := by
  obtain ⟨pre, tv, tw, p1, hv, -, hp1, hplain, hwork, hr⟩ := cold_start_work ctx w w2 hw hp h
  refine ⟨pre, tv, Event.clear (some ⟨.pressure, 0⟩) ::
    ((jacobiPasses w.self.jacobiIterations (viewsOf ⟨.pressure, 0⟩) (viewsOf p1)
        (viewsOf ⟨.divergence, 0⟩)).map Event.dispatch
      ++ [Event.dispatch (gradientPass tv
          (if w.self.jacobiIterations % 2 = 0 then ⟨.pressure, 0⟩ else p1) tw)]),
    by rw [hwork]; simp, hplain, ?_⟩
  intro g K m
  have hne1 : tv ≠ ⟨.pressure, 0⟩ := by
    intro e
    rw [e] at hv
    cases hv
  have hne2 : tv ≠ ⟨.divergence, 0⟩ := by
    intro e
    rw [e] at hv
    cases hv
  have hvp : tv.field ≠ .pressure := by
    rw [hv]
    simp
  rw [hr, ← exec_workOf, hwork, exec_append, exec_append, exec_append]
  generalize exec g K m pre = m0
  have hm1 : exec g K m0 [Event.dispatch (divergencePass tv),
      Event.clear (some ⟨.pressure, 0⟩)]
      = Function.update (Function.update m0 ⟨.divergence, 0⟩ (computeDivergence g (m0 tv)))
          ⟨.pressure, 0⟩ zeroVolume := by
    simp [exec, execEvent, divergencePass, viewsOf, read, write, kernel]
  rw [hm1]
  obtain ⟨j1, j2⟩ := exec_jacobi g K w.self.jacobiIterations ⟨.pressure, 0⟩ p1
    (Function.update (Function.update m0 ⟨.divergence, 0⟩ (computeDivergence g (m0 tv)))
      ⟨.pressure, 0⟩ zeroVolume) rfl hp1
  rw [Function.update_same, Function.update_noteq (by simp), Function.update_same] at j2
  generalize exec g K
    (Function.update (Function.update m0 ⟨.divergence, 0⟩ (computeDivergence g (m0 tv)))
      ⟨.pressure, 0⟩ zeroVolume)
    ((jacobiPasses w.self.jacobiIterations (viewsOf ⟨.pressure, 0⟩) (viewsOf p1)
      (viewsOf ⟨.divergence, 0⟩)).map Event.dispatch) = m2 at j1 j2
  have hm2 : m2 tv = m0 tv := by
    rw [j1 tv hvp, Function.update_noteq hne1, Function.update_noteq hne2]
  simp only [exec, List.foldl_cons, List.foldl_nil, execEvent, gradientPass, viewsOf,
    List.map, kernel, read, write, Function.update_same, j2, hm2]

theorem ProcessAdvection_total (ctx : MapOracle) (hctx : ∀ i, FAILED (ctx i) = false)
    (w : Sim) : ∃ w1, ProcessAdvection ctx w = .ok w1 := by
  cases h : ProcessAdvection ctx w with
  | ok w1 => exact ⟨w1, rfl⟩
  | error w1 =>
    simp only [ProcessAdvection,
      SetGeneralBuffer, SetDissipationBuffer, bind_assoc, pure_bind,
      setBuffer_bind_error, Sim.emit, Advect_self, Advect_mapCalls, Advect_log] at h
    simp [hctx, pure, Except.pure] at h

theorem ProcessProjection_total (ctx : MapOracle) (hctx : ∀ i, FAILED (ctx i) = false)
    (w : Sim) : ∃ w2, ProcessProjection ctx w = .ok w2 := by
  cases h : ProcessProjection ctx w with
  | ok w2 => exact ⟨w2, rfl⟩
  | error w2 =>
    simp only [ProcessProjection, RefreshConstantImpulse, SetImpulseBuffer, bind_assoc, pure_bind,
      setBuffer_bind_error, Sim.emit, Compute_self, Compute_log, Compute_mapCalls, swapSlots_log,
      swapSlots_self, swapSlots_mapCalls] at h
    simp [hctx, pure, Except.pure] at h

theorem Process_total (ctx : MapOracle) (hctx : ∀ i, FAILED (ctx i) = false) (w : Sim) :
    ∃ w2, Process ctx w = .ok w2 := by
  obtain ⟨w1, h1⟩ := ProcessAdvection_total ctx hctx w
  obtain ⟨w2, h2⟩ := ProcessProjection_total ctx hctx w1
  exact ⟨w2, by rw [Process, h1]; exact h2⟩

/-! ## Lemmas: the projection kernels on two velocity fields -/

theorem cells_411 : cells ⟨4, 1, 1⟩ = [(0, 0, 0), (1, 0, 0), (2, 0, 0), (3, 0, 0)] := by
  decide

theorem clampIndex_4 : clampIndex 4 (-1) = 0 ∧ clampIndex 4 0 = 0 ∧ clampIndex 4 1 = 1 ∧
    clampIndex 4 2 = 2 ∧ clampIndex 4 3 = 3 ∧ clampIndex 4 4 = 3 := by
  decide

theorem clampIndex_1 : clampIndex 1 (-1) = 0 ∧ clampIndex 1 0 = 0 ∧ clampIndex 1 1 = 0 := by
  decide

theorem meanAbsDivergence_stripes : meanAbsDivergence ⟨4, 1, 1⟩ stripes = 1 / 2 := by
  simp only [meanAbsDivergence, cells_411, List.map, computeDivergence, sample]
  norm_num [clampIndex_4, clampIndex_1, stripes]

theorem jacobi_stripes_step (p : Volume) :
    (jacobiIterate ⟨4, 1, 1⟩ p (computeDivergence ⟨4, 1, 1⟩ stripes) 0 0 0).x
        = ((p 1 0 0).x + 5 * (p 0 0 0).x - 1) / 6 ∧
    (jacobiIterate ⟨4, 1, 1⟩ p (computeDivergence ⟨4, 1, 1⟩ stripes) 1 0 0).x
        = ((p 2 0 0).x + (p 0 0 0).x + 4 * (p 1 0 0).x) / 6 ∧
    (jacobiIterate ⟨4, 1, 1⟩ p (computeDivergence ⟨4, 1, 1⟩ stripes) 2 0 0).x
        = ((p 3 0 0).x + (p 1 0 0).x + 4 * (p 2 0 0).x) / 6 ∧
    (jacobiIterate ⟨4, 1, 1⟩ p (computeDivergence ⟨4, 1, 1⟩ stripes) 3 0 0).x
        = (5 * (p 3 0 0).x + (p 2 0 0).x - 1) / 6 := by
  refine ⟨?_, ?_, ?_, ?_⟩ <;>
    simp only [jacobiIterate, computeDivergence, sample] <;>
    norm_num [clampIndex_4, clampIndex_1, stripes] <;> ring

theorem jacobi_stripes_iterate (n : Nat) :
    (((fun p => jacobiIterate ⟨4, 1, 1⟩ p (computeDivergence ⟨4, 1, 1⟩ stripes))^[n]
        zeroVolume) 0 0 0).x
      = (((fun p => jacobiIterate ⟨4, 1, 1⟩ p (computeDivergence ⟨4, 1, 1⟩ stripes))^[n]
        zeroVolume) 3 0 0).x ∧
    (((fun p => jacobiIterate ⟨4, 1, 1⟩ p (computeDivergence ⟨4, 1, 1⟩ stripes))^[n]
        zeroVolume) 1 0 0).x
      = (((fun p => jacobiIterate ⟨4, 1, 1⟩ p (computeDivergence ⟨4, 1, 1⟩ stripes))^[n]
        zeroVolume) 2 0 0).x ∧
    (((fun p => jacobiIterate ⟨4, 1, 1⟩ p (computeDivergence ⟨4, 1, 1⟩ stripes))^[n]
        zeroVolume) 1 0 0).x
      - (((fun p => jacobiIterate ⟨4, 1, 1⟩ p (computeDivergence ⟨4, 1, 1⟩ stripes))^[n]
        zeroVolume) 0 0 0).x = (1 - (2 / 3) ^ n) / 2 := by
  induction n with
  | zero => simp [zeroVolume]
  | succ n ih =>
    rw [Function.iterate_succ_apply']
    generalize ((fun p => jacobiIterate ⟨4, 1, 1⟩ p (computeDivergence ⟨4, 1, 1⟩ stripes))^[n]
      zeroVolume) = q at ih ⊢
    obtain ⟨h0, h1, hd⟩ := ih
    obtain ⟨e0, e1, e2, e3⟩ := jacobi_stripes_step q
    rw [e0, e1, e2, e3, pow_succ]
    refine ⟨by linarith, by linarith, ?_⟩
    linear_combination (2 / 3 : ℚ) * hd - (1 / 6 : ℚ) * h1

theorem meanAbsDivergence_stripes_projected (q : Volume) (δ : ℚ)
    (h0 : (q 0 0 0).x = (q 3 0 0).x) (h1 : (q 1 0 0).x = (q 2 0 0).x)
    (hd : (q 1 0 0).x - (q 0 0 0).x = δ) (hpos : 0 ≤ δ) :
    meanAbsDivergence ⟨4, 1, 1⟩ (subtractGradient ⟨4, 1, 1⟩ stripes q) = 1 / 2 + δ / 4 := by
  have d0 : (computeDivergence ⟨4, 1, 1⟩ (subtractGradient ⟨4, 1, 1⟩ stripes q) 0 0 0).x = 1 := by
    simp only [computeDivergence, subtractGradient, sample]
    norm_num [clampIndex_4, clampIndex_1, stripes]
    linarith
  have d1 : (computeDivergence ⟨4, 1, 1⟩ (subtractGradient ⟨4, 1, 1⟩ stripes q) 1 0 0).x
      = δ / 2 := by
    simp only [computeDivergence, subtractGradient, sample]
    norm_num [clampIndex_4, clampIndex_1, stripes]
    linarith
  have d2 : (computeDivergence ⟨4, 1, 1⟩ (subtractGradient ⟨4, 1, 1⟩ stripes q) 2 0 0).x
      = δ / 2 := by
    simp only [computeDivergence, subtractGradient, sample]
    norm_num [clampIndex_4, clampIndex_1, stripes]
    linarith
  have d3 : (computeDivergence ⟨4, 1, 1⟩ (subtractGradient ⟨4, 1, 1⟩ stripes q) 3 0 0).x = 1 := by
    simp only [computeDivergence, subtractGradient, sample]
    norm_num [clampIndex_4, clampIndex_1, stripes]
    linarith
  rw [meanAbsDivergence, cells_411]
  simp only [List.map, List.sum_cons, List.sum_nil, d0, d1, d2, d3]
  rw [abs_of_nonneg (by positivity : (0 : ℚ) ≤ δ / 2)]
  norm_num
  ring

theorem stripes_projection_grows (mac : Bool) (n : Nat) :
    ∃ w2 pre tv post,
      Process okContext (initialSim mac (n + 1) ⟨4, 1, 1⟩) = .ok w2 ∧
      workOf (newEvents (initialSim mac (n + 1) ⟨4, 1, 1⟩) w2) =
        pre ++ Event.dispatch (divergencePass tv) :: post ∧
      read (exec ⟨4, 1, 1⟩ (fun _ _ => stripes) (fun _ => stripes) pre) (some tv) = stripes ∧
      meanAbsDivergence ⟨4, 1, 1⟩
          (read (exec ⟨4, 1, 1⟩ (fun _ _ => stripes) (fun _ => stripes) pre) (some tv))
        = 1 / 2 ∧
      meanAbsDivergence ⟨4, 1, 1⟩
          (read (exec ⟨4, 1, 1⟩ (fun _ _ => stripes) (fun _ => stripes)
            (newEvents (initialSim mac (n + 1) ⟨4, 1, 1⟩) w2)) (w2.self.mVelocitySP READ).mSRV)
        = 1 / 2 + (1 - (2 / 3) ^ (n + 1)) / 8 ∧
      meanAbsDivergence ⟨4, 1, 1⟩
          (read (exec ⟨4, 1, 1⟩ (fun _ _ => stripes) (fun _ => stripes) pre) (some tv))
        < meanAbsDivergence ⟨4, 1, 1⟩
          (read (exec ⟨4, 1, 1⟩ (fun _ _ => stripes) (fun _ => stripes)
            (newEvents (initialSim mac (n + 1) ⟨4, 1, 1⟩) w2))
            (w2.self.mVelocitySP READ).mSRV) := by
  obtain ⟨w2, h⟩ := Process_total okContext (fun _ => rfl) (initialSim mac (n + 1) ⟨4, 1, 1⟩)
  obtain ⟨pre, tv, post, hwork, hplain, hcf⟩ := cold_start_projection okContext _ w2
    (WellFormed_initialSim mac (n + 1) ⟨4, 1, 1⟩) rfl h
  have hpre : read (exec ⟨4, 1, 1⟩ (fun _ _ => stripes) (fun _ => stripes) pre) (some tv)
      = stripes := by
    rw [exec_const _ _ _ hplain]
    rfl
  have hn : (initialSim mac (n + 1) ⟨4, 1, 1⟩).self.jacobiIterations = n + 1 := rfl
  obtain ⟨h0, h1, hd⟩ := jacobi_stripes_iterate (n + 1)
  have hlt : (2 / 3 : ℚ) ^ (n + 1) < 1 := pow_lt_one₀ (by norm_num) (by norm_num) (by simp)
  have hafter := meanAbsDivergence_stripes_projected _ _ h0 h1 hd (by linarith)
  refine ⟨w2, pre, tv, post, h, hwork, hpre, ?_, ?_, ?_⟩
  · rw [hpre]
    exact meanAbsDivergence_stripes
  · rw [hcf, hpre, hn, hafter]
    ring
  · rw [hcf, hpre, hn, hafter, meanAbsDivergence_stripes]
    linarith

theorem cells_221 : cells ⟨2, 2, 1⟩ = [(0, 0, 0), (0, 1, 0), (1, 0, 0), (1, 1, 0)] := by
  decide

theorem clampIndex_2 : clampIndex 2 (-1) = 0 ∧ clampIndex 2 0 = 0 ∧ clampIndex 2 1 = 1 ∧
    clampIndex 2 2 = 1 := by
  decide

theorem shear_divergence_free :
    ∀ c ∈ cells ⟨2, 2, 1⟩, (computeDivergence ⟨2, 2, 1⟩ shear c.1 c.2.1 c.2.2).x = 0 := by
  rw [cells_221]
  simp only [List.mem_cons, List.mem_singleton, List.not_mem_nil, or_false, forall_eq_or_imp,
    forall_eq, computeDivergence, sample]
  norm_num [clampIndex_2, clampIndex_1, shear]

theorem advectPasses_stages (c : Fluid3DCalculator) (q : Quantity) :
    (advectPasses c q).map stageOf = List.replicate (advectLength c.macCormackEnabled)
      (match q with
        | .velocity => some Stage.advectVelocity
        | .temperature => some Stage.advectTemperature
        | .density => some Stage.advectDensity) := by
  cases h : c.macCormackEnabled <;> cases q <;>
    simp [advectPasses, Advect, h, passesOf, Compute, Sim.emit, stageOf, advectLength,
      Fluid3DCalculator.arg, Quantity.toField, List.replicate]

theorem jacobiPasses_stages (n : Nat) (r wr dv : ShaderParams) :
    (jacobiPasses n r wr dv).map stageOf = List.replicate n (some Stage.pressureIterate) := by
  induction n generalizing r wr with
  | zero => rfl
  | succ n ih => simp [jacobiPasses, ih, stageOf, List.replicate]

/-! ## Lemmas: slot arrays stay permutations, passes write apart from what they read -/

theorem swap_eq_comp {n : Nat} {α : Type} (arr : Fin n → α) (i j : Fin n) :
    swap arr i j = arr ∘ (Equiv.swap i j) := by
  funext k
  simp only [swap, Function.comp, Equiv.swap_apply_def]
  split_ifs <;> rfl

theorem IsPermOf_refl {n : Nat} (arr : Fin n → ShaderParams) : IsPermOf arr arr :=
  ⟨Equiv.refl _, rfl⟩

theorem IsPermOf_swap {n : Nat} {arr arr0 : Fin n → ShaderParams} (i j : Fin n)
    (h : IsPermOf arr arr0) : IsPermOf (swap arr i j) arr0 := by
  obtain ⟨σ, rfl⟩ := h
  exact ⟨(Equiv.swap i j).trans σ, by rw [swap_eq_comp]; rfl⟩

theorem IsPermOf_pingPong {arr arr0 : Fin 2 → ShaderParams} (n : Nat)
    (h : IsPermOf arr arr0) : IsPermOf (pingPong n arr) arr0 := by
  unfold pingPong
  split_ifs
  · exact h
  · exact IsPermOf_swap _ _ h

theorem PermutedFrom_refl (c : Fluid3DCalculator) : PermutedFrom c c where
  velocity := IsPermOf_refl _
  temperature := IsPermOf_refl _
  density := IsPermOf_refl _
  pressure := IsPermOf_refl _
  divergence := rfl

theorem PermutedFrom_step {c c0 : Fluid3DCalculator} (h : PermutedFrom c c0) :
    PermutedFrom (projected (advected c)) c0 where
  velocity := IsPermOf_swap _ _ h.velocity
  temperature := IsPermOf_swap _ _ (IsPermOf_swap _ _ h.temperature)
  density := IsPermOf_swap _ _ (IsPermOf_swap _ _ h.density)
  pressure := IsPermOf_pingPong _ h.pressure
  divergence := h.divergence

theorem jacobiPasses_writesApart (n : Nat) (r wr dv : ShaderParams)
    (h1 : r.mSRV ≠ wr.mUAV) (h2 : wr.mSRV ≠ r.mUAV) (h3 : dv.mSRV ≠ r.mUAV)
    (h4 : dv.mSRV ≠ wr.mUAV) : ∀ p ∈ jacobiPasses n r wr dv, writesApart p := by
  induction n generalizing r wr with
  | zero => intro p hp; cases hp
  | succ n ih =>
    intro p hp
    rcases List.mem_cons.1 hp with rfl | hp
    · intro a ha
      simp only [List.mem_cons, List.mem_singleton, List.not_mem_nil, or_false] at ha
      rcases ha with rfl | rfl
      · exact h1
      · exact h4
    · exact ih wr r h2 h1 h4 h3 p hp

theorem advectPasses_writesApart (c : Fluid3DCalculator) (hw : WellFormed c) (q : Quantity) :
    ∀ p ∈ advectPasses c q, writesApart p := by
  obtain ⟨πv, iv, hv⟩ := hw.velocity
  obtain ⟨πt, it, ht⟩ := hw.temperature
  obtain ⟨πd, id, hd⟩ := hw.density
  intro p hmem
  cases hm : c.macCormackEnabled
  · rw [advectPasses_off _ _ hm] at hmem
    simp only [List.mem_singleton] at hmem
    subst hmem
    cases q <;>
      simp [writesApart, Fluid3DCalculator.arg, Fluid3DCalculator.slots, hv, ht, hd,
        Quantity.toField, iv.eq_iff, it.eq_iff, id.eq_iff]
  · rw [advectPasses_on _ _ hm] at hmem
    simp only [List.mem_cons, List.mem_singleton, List.not_mem_nil, or_false] at hmem
    rcases hmem with rfl | rfl | rfl <;> cases q <;>
      simp [writesApart, Fluid3DCalculator.arg, Fluid3DCalculator.slots, hv, ht, hd,
        Quantity.toField, iv.eq_iff, it.eq_iff, id.eq_iff]

theorem projectionPasses_writesApart (a : Fluid3DCalculator) (hw : WellFormed a) :
    ∀ p ∈ projectionPasses a, writesApart p := by
  obtain ⟨πv, iv, hv⟩ := hw.velocity
  obtain ⟨πt, it, ht⟩ := hw.temperature
  obtain ⟨πd, id, hd⟩ := hw.density
  obtain ⟨πp, ip, hp⟩ := hw.pressure
  have hdiv := hw.divergence
  have hj : ∀ p ∈ jacobiPasses a.jacobiIterations (a.mPressureSP READ)
      (a.mPressureSP WRITE) a.mDivergenceSP, writesApart p := by
    apply jacobiPasses_writesApart <;> simp [hp, hdiv, ip.eq_iff]
  intro p hmem
  rw [projectionPasses] at hmem
  rcases List.mem_append.1 hmem with hmem | hmem
  · rcases List.mem_append.1 hmem with hmem | hmem
    · simp only [List.mem_cons, List.mem_singleton, List.not_mem_nil, or_false] at hmem
      rcases hmem with rfl | rfl | rfl | rfl <;>
        simp [writesApart, hv, ht, hd, hdiv, iv.eq_iff, it.eq_iff, id.eq_iff]
    · exact hj p hmem
  · simp only [List.mem_singleton] at hmem
    subst hmem
    simp only [writesApart, pingPong]
    split_ifs <;> simp [swap, hv, hp, iv.eq_iff]

theorem WellFormed_advected (c : Fluid3DCalculator) (h : WellFormed c) :
    WellFormed (advected c) where
  velocity := SlotsOf_swap _ _ h.velocity
  temperature := SlotsOf_swap _ _ h.temperature
  density := SlotsOf_swap _ _ h.density
  pressure := h.pressure
  divergence := h.divergence
  targets := h.targets

theorem stepPasses_writesApart (c : Fluid3DCalculator) (hw : WellFormed c) :
    ∀ p ∈ stepPasses c, writesApart p := by
  intro p hmem
  rw [stepPasses] at hmem
  rcases List.mem_append.1 hmem with hmem | hmem
  · rcases List.mem_append.1 hmem with hmem | hmem
    · rcases List.mem_append.1 hmem with hmem | hmem
      · exact advectPasses_writesApart c hw _ p hmem
      · exact advectPasses_writesApart c hw _ p hmem
    · exact advectPasses_writesApart c hw _ p hmem
  · exact projectionPasses_writesApart _ (WellFormed_advected c hw) p hmem

theorem run_writesApart (ctx : MapOracle) (w0 : Sim) (hw : WellFormed w0.self) (k : Nat) :
    (∀ w, run ctx k w0 = .ok w →
      WellFormed w.self ∧ PermutedFrom w.self w0.self ∧
        w.log = w0.log ++ newEvents w0 w ∧ ∀ p ∈ newPasses w0 w, writesApart p) ∧
    (∀ w, run ctx k w0 = .error w →
      w.log = w0.log ++ newEvents w0 w ∧ ∀ p ∈ newPasses w0 w, writesApart p) := by
  induction k with
  | zero =>
    constructor
    · intro w h
      simp only [run, Except.ok.injEq] at h
      subst h
      have e : newEvents w0 w0 = [] := by simp [newEvents]
      refine ⟨hw, PermutedFrom_refl _, by rw [e, List.append_nil], ?_⟩
      intro p hp
      rw [newPasses, e] at hp
      cases hp
    · intro w h
      simp [run] at h
  | succ k ih =>
    obtain ⟨ihok, iherr⟩ := ih
    have key : ∀ w1, run ctx k w0 = .ok w1 → ∀ w2, w2.log = w1.log ++ newEvents w1 w2 →
        (∀ p ∈ newPasses w1 w2, writesApart p) →
        w2.log = w0.log ++ newEvents w0 w2 ∧ ∀ p ∈ newPasses w0 w2, writesApart p := by
      intro w1 h1 w2 hl hp
      obtain ⟨-, -, l1, p1⟩ := ihok w1 h1
      have hl2 : w2.log = w0.log ++ (newEvents w0 w1 ++ newEvents w1 w2) := by
        rw [hl, l1, List.append_assoc]
      have hn : newEvents w0 w2 = newEvents w0 w1 ++ newEvents w1 w2 :=
        newEvents_append w0 w2 _ hl2
      refine ⟨by rw [hn, hl2], ?_⟩
      intro p hmem
      rw [newPasses, hn, passesOf_append] at hmem
      rcases List.mem_append.1 hmem with hmem | hmem
      · exact p1 p hmem
      · exact hp p hmem
    constructor
    · intro w h
      obtain ⟨w1, h1, h2⟩ := run_succ_ok h
      obtain ⟨hw1, hperm, -, -⟩ := ihok w1 h1
      obtain ⟨hs, -, hl, hp, -, -⟩ := Process_ok ctx w1 w h2
      obtain ⟨l2, p2⟩ := key w1 h1 w hl (by rw [hp]; exact stepPasses_writesApart _ hw1)
      rw [hs]
      exact ⟨WellFormed_step _ hw1, PermutedFrom_step hperm, l2, p2⟩
    · intro w h
      rcases bind_eq_error h with h1 | ⟨w1, h1, h2⟩
      · exact iherr w h1
      · obtain ⟨hw1, -, -, -⟩ := ihok w1 h1
        obtain ⟨hl, -, hp⟩ := Process_error ctx w1 w h2
        refine key w1 h1 w hl ?_
        intro p hmem
        exact stepPasses_writesApart _ hw1 p (hp.subset hmem)

/-! ## Lemmas: the chain of Jacobi passes -/

theorem jacobiPasses_length (n : Nat) (r wr dv : ShaderParams) :
    (jacobiPasses n r wr dv).length = n := by
  induction n generalizing r wr with
  | zero => rfl
  | succ n ih => simp [jacobiPasses, ih]

theorem jacobiPasses_inputs (n : Nat) (r wr dv : ShaderParams) :
    ∀ p ∈ jacobiPasses n r wr dv,
      p.shader = .jacobi ∧ ∃ a, p.inputs = [a, ⟨.divergence, 0, dv⟩] := by
  induction n generalizing r wr with
  | zero => intro p hp; cases hp
  | succ n ih =>
    intro p hp
    rcases List.mem_cons.1 hp with rfl | hp
    · exact ⟨rfl, _, rfl⟩
    · exact ih _ _ p hp

theorem jacobiPasses_chain (n : Nat) (r wr dv : ShaderParams) :
    List.Chain' (fun p q : Pass => ∃ a, q.inputs = [⟨.pressure, 0, p.output.sp⟩, a])
      (jacobiPasses n r wr dv) := by
  induction n generalizing r wr with
  | zero => exact List.chain'_nil
  | succ n ih =>
    rw [jacobiPasses]
    cases n with
    | zero => exact List.chain'_singleton _
    | succ n =>
      have := ih wr r
      rw [jacobiPasses] at this ⊢
      exact List.Chain'.cons ⟨_, rfl⟩ this

theorem jacobiPasses_getLast (n : Nat) (r wr dv : ShaderParams) :
    (jacobiPasses (n + 1) r wr dv).getLast?.map (fun p => p.output.sp) =
      some (if (n + 1) % 2 = 0 then r else wr) := by
  induction n generalizing r wr with
  | zero => simp [jacobiPasses]
  | succ n ih =>
    rw [jacobiPasses]
    have h := ih wr r
    have e : (if (n + 1 + 1) % 2 = 0 then r else wr) = (if (n + 1) % 2 = 0 then wr else r) := by
      rcases Nat.mod_two_eq_zero_or_one n with h | h
      · have e1 : (n + 1) % 2 = 1 := by omega
        have e2 : (n + 1 + 1) % 2 = 0 := by omega
        simp [e1, e2]
      · have e1 : (n + 1) % 2 = 0 := by omega
        have e2 : (n + 1 + 1) % 2 = 1 := by omega
        simp [e1, e2]
    rw [e, ← h]
    rw [jacobiPasses, List.getLast?_cons_cons]

theorem jacobiOf_jacobiPasses (n : Nat) (r wr dv : ShaderParams) :
    jacobiOf (jacobiPasses n r wr dv) = jacobiPasses n r wr dv := by
  unfold jacobiOf
  rw [List.filter_eq_self]
  intro p hp
  simp [(jacobiPasses_field n r wr dv p hp).2]

theorem CalculatePressureGradient_passes (w : Sim) :
    newPasses w (CalculatePressureGradient w) =
      jacobiPasses w.self.jacobiIterations (w.self.mPressureSP READ) (w.self.mPressureSP WRITE)
        w.self.mDivergenceSP := by
  have hl : (CalculatePressureGradient w).log = w.log ++
      (Event.clear (w.self.mPressureRenderTargets READ) ::
        (jacobiPasses w.self.jacobiIterations (w.self.mPressureSP READ)
          (w.self.mPressureSP WRITE) w.self.mDivergenceSP).map Event.dispatch) := by
    simp [CalculatePressureGradient, jacobiLoop_log, Sim.emit]
  rw [newPasses, newEvents_append w _ _ hl]
  simp [passesOf, passesOf_map_dispatch]

/-! ## Lemmas: what a successful `Initialize` establishes -/

theorem createSlot_true (d : Device) (f : Field) {n : Nat} (i : Fin n)
    (arr : Fin n → ShaderParams) (h : (createSlot d f i arr).1 = true) :
    (createSlot d f i arr).2 = Function.update arr i (viewsOf ⟨f, i.val⟩) := by
  unfold createSlot at h ⊢
  by_cases h1 : FAILED (d.CreateTexture3D f i.val) = true
  · simp [h1] at h
  · by_cases h2 : FAILED (d.CreateShaderResourceView f i.val) = true
    · simp [h1, h2] at h
    · by_cases h3 : FAILED (d.CreateUnorderedAccessView f i.val) = true
      · simp [h1, h2, h3] at h
      · simp [h1, h2, h3, created, viewsOf]

theorem foldl_sticky {α β : Type} (step : α → β → Bool × α) (idx : List β) (a : α) :
    (idx.foldl (fun acc i => if acc.1 then step acc.2 i else acc) (false, a)) = (false, a) := by
  induction idx with
  | nil => rfl
  | cons i idx ih => simpa using ih

theorem createSlots_true (d : Device) (f : Field) {n : Nat} (idx : List (Fin n))
    (arr : Fin n → ShaderParams) (h : (createSlots d f idx arr).1 = true) :
    (createSlots d f idx arr).2 =
      idx.foldl (fun a i => Function.update a i (viewsOf ⟨f, i.val⟩)) arr := by
  induction idx generalizing arr with
  | nil => rfl
  | cons i idx ih =>
    have e : createSlots d f (i :: idx) arr =
        idx.foldl (fun acc j => if acc.1 then createSlot d f j acc.2 else acc)
          (createSlot d f i arr) := by
      simp [createSlots]
    cases hc : (createSlot d f i arr).1
    · have e2 : createSlot d f i arr = (false, (createSlot d f i arr).2) := by
        rw [← hc]
      rw [e, e2, foldl_sticky (fun a j => createSlot d f j a)] at h
      simp at h
    · have e2 : createSlot d f i arr = (true, (createSlot d f i arr).2) := by
        rw [← hc]
      have e3 : createSlots d f (i :: idx) arr =
          createSlots d f idx (createSlot d f i arr).2 := by
        rw [e, e2]
        rfl
      rw [e3] at h ⊢
      rw [ih _ h, createSlot_true d f i arr hc]
      rfl

theorem SlotsOf_created (f : Field) (arr : Fin 4 → ShaderParams) :
    SlotsOf f (([0, 1, 2, 3] : List (Fin 4)).foldl
      (fun a i => Function.update a i (viewsOf ⟨f, i.val⟩)) arr) := by
  refine ⟨fun i => i.val, Fin.val_injective, ?_⟩
  intro i
  fin_cases i <;> simp [Function.update, viewsOf]

theorem createPressureSlot_true (d : Device) (i : Fin 2)
    (st : (Fin 2 → ShaderParams) × (Fin 2 → View)) (h : (createPressureSlot d i st).1 = true) :
    (createPressureSlot d i st).2 =
      (Function.update st.1 i (viewsOf ⟨.pressure, i.val⟩),
        Function.update st.2 i (some ⟨.pressure, i.val⟩)) := by
  unfold createPressureSlot at h ⊢
  cases h1 : (createSlot d .pressure i st.1).1
  · simp [h1] at h
  · have e := createSlot_true d .pressure i st.1 h1
    by_cases h2 : FAILED (d.CreateRenderTargetView i.val) = true
    · simp [h1, h2] at h
    · simp [h1, h2, e, created]

theorem createPressureSlots_true (d : Device) (st : (Fin 2 → ShaderParams) × (Fin 2 → View))
    (h : (createPressureSlots d st).1 = true) :
    (createPressureSlots d st).2 =
      (Function.update (Function.update st.1 0 (viewsOf ⟨.pressure, 0⟩)) 1
          (viewsOf ⟨.pressure, 1⟩),
        Function.update (Function.update st.2 0 (some ⟨.pressure, 0⟩)) 1
          (some ⟨.pressure, 1⟩)) := by
  unfold createPressureSlots at h ⊢
  simp only [List.foldl_cons, List.foldl_nil, if_true] at h ⊢
  cases h0 : (createPressureSlot d 0 st).1
  · simp [h0] at h
  · have e0 := createPressureSlot_true d 0 st h0
    simp only [h0, if_true] at h ⊢
    have e1 := createPressureSlot_true d 1 _ h
    rw [e1, e0]
    rfl

theorem FAILED_bool_false (b : Bool) : FAILED_bool b = false := by
  cases b <;> decide

theorem Initialize_wellFormed (d : Device) (c : Fluid3DCalculator)
    (h : (Initialize d c).1 = true)
    (hdiv : FAILED (d.CreateTexture3D .divergence 0) = false) :
    WellFormed (Initialize d c).2 := by
  by_cases c1 : d.shaderInitialize .forwardAdvection = true
  swap
  · simp [Initialize, c1] at h
  by_cases c2 : d.shaderInitialize .backwardAdvection = true
  swap
  · simp [Initialize, c1, c2] at h
  by_cases c3 : d.shaderInitialize .macCormarckAdvection = true
  swap
  · simp [Initialize, c1, c2, c3] at h
  by_cases c4 : d.shaderInitialize .impulse = true
  swap
  · simp [Initialize, c1, c2, c3, c4] at h
  by_cases c5 : d.shaderInitialize .jacobi = true
  swap
  · simp [Initialize, c1, c2, c3, c4, c5] at h
  by_cases c6 : d.shaderInitialize .divergence = true
  swap
  · simp [Initialize, c1, c2, c3, c4, c5, c6] at h
  by_cases c7 : d.shaderInitialize .subtractGradient = true
  swap
  · simp [Initialize, c1, c2, c3, c4, c5, c6, c7] at h
  by_cases c8 : d.shaderInitialize .buoyancy = true
  swap
  · simp [Initialize, c1, c2, c3, c4, c5, c6, c7, c8] at h
  by_cases v : (createSlots d .velocity ([0, 1, 2, 3] : List (Fin 4)) (fun _ => ⟨none, none⟩)).1 = true
  swap
  · simp [Initialize, c1, c2, c3, c4, c5, c6, c7, c8, v] at h
  by_cases dn : (createSlots d .density ([0, 1, 2, 3] : List (Fin 4)) (fun _ => ⟨none, none⟩)).1 = true
  swap
  · simp [Initialize, c1, c2, c3, c4, c5, c6, c7, c8, v, dn] at h
  by_cases t : (createSlots d .temperature ([0, 1, 2, 3] : List (Fin 4)) (fun _ => ⟨none, none⟩)).1 = true
  swap
  · simp [Initialize, c1, c2, c3, c4, c5, c6, c7, c8, v, dn, t] at h
  by_cases s1 : FAILED (d.CreateShaderResourceView .divergence 0) = true
  · simp [Initialize, c1, c2, c3, c4, c5, c6, c7, c8, v, dn, t, s1] at h
  by_cases s2 : FAILED (d.CreateUnorderedAccessView .divergence 0) = true
  · simp [Initialize, c1, c2, c3, c4, c5, c6, c7, c8, v, dn, t, s1, s2] at h
  by_cases p : (createPressureSlots d (fun _ => ⟨none, none⟩, c.mPressureRenderTargets)).1 = true
  swap
  · simp [Initialize, c1, c2, c3, c4, c5, c6, c7, c8, v, dn, t, s1, s2, p] at h
  by_cases b1 : FAILED (d.CreateBuffer .general) = true
  · simp [Initialize, c1, c2, c3, c4, c5, c6, c7, c8, v, dn, t, s1, s2, p, b1] at h
  by_cases b2 : FAILED (d.CreateBuffer .dissipation) = true
  · simp [Initialize, c1, c2, c3, c4, c5, c6, c7, c8, v, dn, t, s1, s2, p, b1, b2] at h
  by_cases b3 : FAILED (d.CreateBuffer .impulse) = true
  · simp [Initialize, c1, c2, c3, c4, c5, c6, c7, c8, v, dn, t, s1, s2, p, b1, b2, b3] at h
  have ev := createSlots_true d .velocity _ _ v
  have ed := createSlots_true d .density _ _ dn
  have et := createSlots_true d .temperature _ _ t
  have ep := createPressureSlots_true d _ p
  have hs : (Initialize d c).2 =
      { c with
        mVelocitySP := (createSlots d .velocity ([0, 1, 2, 3] : List (Fin 4)) (fun _ => ⟨none, none⟩)).2
        mDensitySP := (createSlots d .density ([0, 1, 2, 3] : List (Fin 4)) (fun _ => ⟨none, none⟩)).2
        mTemperatureSP := (createSlots d .temperature ([0, 1, 2, 3] : List (Fin 4)) (fun _ => ⟨none, none⟩)).2
        mDivergenceSP := viewsOf ⟨.divergence, 0⟩
        mPressureSP :=
          (createPressureSlots d (fun _ => ⟨none, none⟩, c.mPressureRenderTargets)).2.1
        mPressureRenderTargets :=
          (createPressureSlots d (fun _ => ⟨none, none⟩, c.mPressureRenderTargets)).2.2
        mInputBufferGeneral := true
        mInputBufferDissipation := true
        mInputBufferImpulse := true
        mSampleState := created d.CreateSamplerState c.mSampleState true } := by
    simp [Initialize, c1, c2, c3, c4, c5, c6, c7, c8, v, dn, t, s1, s2, p, b1, b2, b3, hdiv,
      created, viewsOf, FAILED_bool_false]
  rw [hs]
  exact {
    velocity := by rw [ev]; exact SlotsOf_created _ _
    temperature := by rw [et]; exact SlotsOf_created _ _
    density := by rw [ed]; exact SlotsOf_created _ _
    pressure := by
      rw [ep]
      refine ⟨fun i => i.val, Fin.val_injective, ?_⟩
      intro i
      fin_cases i <;> simp [Function.update, viewsOf]
    divergence := rfl
    targets := by
      rw [ep]
      intro i
      fin_cases i <;> simp [Function.update] }

end Fluid3D

/-! ## The claims -/

namespace Fluid3D

/-- C1. A call of `Process` that completes dispatches, read as stage names,
exactly: advect velocity, advect temperature, advect density (each once per pass
of its `Advect` call), buoyancy, impulse on temperature, impulse on density,
divergence, `jacobiIterations` pressure iterations, gradient subtraction; a call
that throws dispatched a prefix of that sequence.  So no other pass is dispatched
and none is out of order, for every iteration count and both flag values. -/
theorem Process_dispatches_stage_sequence (ctx : MapOracle) (w : Sim) :
    (∀ w2, Process ctx w = .ok w2 → (newPasses w w2).map stageOf =
      stageSequence w.self.macCormackEnabled w.self.jacobiIterations) ∧
    (∀ w2, Process ctx w = .error w2 → (newPasses w w2).map stageOf <+:
      stageSequence w.self.macCormackEnabled w.self.jacobiIterations) := by
  have key : (stepPasses w.self).map stageOf =
      stageSequence w.self.macCormackEnabled w.self.jacobiIterations := by
    simp [stepPasses, projectionPasses, advectPasses_stages, jacobiPasses_stages, stageSequence,
      stageOf, advected]
  constructor
  · intro w2 h
    rw [(Process_ok ctx w w2 h).2.2.2.1, key]
  · intro w2 h
    rw [← key]
    exact (Process_error ctx w w2 h).2.2.map stageOf

/-- Witness for C1: the first step of the solver as constructed (MacCormack on,
15 iterations) on a 16 x 16 x 16 grid. -/
theorem Process_dispatches_stage_sequence_witness :
    ∃ w2, Process okContext (initialSim true 15 ⟨16, 16, 16⟩) = .ok w2 ∧
      (newPasses (initialSim true 15 ⟨16, 16, 16⟩) w2).map stageOf = stageSequence true 15 :=
  ⟨_, rfl, (Process_dispatches_stage_sequence okContext _).1 _ rfl⟩

/-- C2, at the solver as constructed (MacCormack on, 15 Jacobi rounds) on a
16 x 16 x 16 grid: in the second `Process` call the buffer that
`CalculatePressureGradient` clears is pressure texture 0, while the first Jacobi
pass of that step reads pressure texture 1, the buffer the last Jacobi pass of
the first step wrote.  The second step is warm-started. -/
theorem second_step_clears_unread_pressure_buffer :
    ∃ w1 w2, Process okContext (defaultSim ⟨16, 16, 16⟩) = .ok w1 ∧
      Process okContext w1 = .ok w2 ∧
      clearedOf (newEvents w1 w2) = [some ⟨.pressure, 0⟩] ∧
      (jacobiOf (newPasses w1 w2)).head?.map (fun p => p.inputs.map (fun a => a.sp.mSRV))
        = some [some ⟨.pressure, 1⟩, some ⟨.divergence, 0⟩] ∧
      (jacobiOf (newPasses (defaultSim ⟨16, 16, 16⟩) w1)).getLast?.map
        (fun p => p.output.sp.mUAV) = some (some ⟨.pressure, 1⟩) :=
  ⟨_, _, rfl, rfl, by decide, by decide, by decide⟩

/-- C4, at a device on which only `CreateSamplerState` fails: `Initialize`
returns `true` although the sampler was not created. -/
theorem Initialize_true_without_sampler :
    FAILED samplerFailingDevice.CreateSamplerState = true ∧
      (Initialize samplerFailingDevice (Fluid3DCalculator.new ⟨16, 16, 16⟩)).1 = true ∧
      (Initialize samplerFailingDevice (Fluid3DCalculator.new ⟨16, 16, 16⟩)).2.mSampleState
        = false :=
  ⟨by decide, by decide, by decide⟩

/-- C5. After every completed call of `Process`, for both flag values,
`GetVolumeTexture` returns the SRV of the density `READ` slot, and that slot
holds the `ShaderParams` that the density impulse pass of the step wrote to; no
later pass of the step writes density. -/
theorem GetVolumeTexture_after_Process (ctx : MapOracle) (w w2 : Sim)
    (h : Process ctx w = .ok w2) :
    GetVolumeTexture w2.self = (w2.self.mDensitySP READ).mSRV ∧
    ∃ pre p post, newPasses w w2 = pre ++ p :: post ∧
      p.shader = .impulse ∧ p.output.field = .density ∧
      p.output.sp = w2.self.mDensitySP READ ∧
      ∀ q ∈ post, q.output.field ≠ .density := by
  obtain ⟨hs, -, -, hp, -, -⟩ := Process_ok ctx w w2 h
  refine ⟨rfl, ?_⟩
  refine ⟨advectPasses w.self .velocity ++ advectPasses w.self .temperature
      ++ advectPasses w.self .density ++ (projectionPasses (advected w.self)).take 2,
    ⟨.impulse, [⟨.density, 0, (advected w.self).mDensitySP READ⟩],
      ⟨.density, 1, (advected w.self).mDensitySP WRITE⟩⟩,
    (projectionPasses (advected w.self)).drop 3, ?_, ?_, ?_, ?_, ?_⟩
  · rw [hp, stepPasses]
    simp [projectionPasses]
  · rfl
  · rfl
  · rw [hs]
    simp [projected, swap]
  · intro q hq
    simp only [projectionPasses, List.cons_append, List.nil_append, List.drop_succ_cons,
      List.drop_zero, List.mem_cons, List.mem_append, List.mem_singleton] at hq
    rcases hq with rfl | hq | rfl | hq
    · simp
    · rw [(jacobiPasses_field _ _ _ _ q hq).1]
      simp
    · simp
    · cases hq

/-- Witness for C5: the first step of the solver as constructed. -/
theorem GetVolumeTexture_after_Process_witness :
    ∃ w2, Process okContext (initialSim true 15 ⟨16, 16, 16⟩) = .ok w2 ∧
      GetVolumeTexture w2.self = (w2.self.mDensitySP READ).mSRV ∧
      GetVolumeTexture w2.self = some ⟨.density, 0⟩ :=
  ⟨_, rfl, (GetVolumeTexture_after_Process okContext _ _ rfl).1, by decide⟩

/-- C6. With MacCormack off, `Advect` dispatches the forward advection pass and
nothing else.  After the advection block of a completed `Process` call the
`READ` slot of each of velocity, temperature and density holds what the slot
`WRITE2` held (MacCormack off) or what the slot `WRITE` held (on), and that is
the output argument of the forward pass, respectively of the MacCormack pass, of
that quantity. -/
theorem Advect_result_promoted (ctx : MapOracle) (w : Sim) :
    (w.self.macCormackEnabled = false → ∀ q, newPasses w (Advect q w) =
      [⟨.forwardAdvection, [w.self.arg .velocity READ, w.self.arg q READ],
        w.self.arg q WRITE2⟩]) ∧
    (∀ w1, ProcessAdvection ctx w = .ok w1 → ∀ q,
      w1.self.slots q READ = w.self.slots q (if w.self.macCormackEnabled then WRITE else WRITE2) ∧
      ∃ p ∈ newPasses w w1,
        p.shader = (if w.self.macCormackEnabled then Shader.macCormarckAdvection
          else Shader.forwardAdvection) ∧
        p.output = w.self.arg q (if w.self.macCormackEnabled then WRITE else WRITE2)) := by
  constructor
  · intro hm q
    rw [newPasses, newEvents_append w (Advect q w) _ (Advect_log q w), passesOf_map_dispatch,
      advectPasses_off _ _ hm]
  · intro w1 h q
    have hs := (ProcessAdvection_ok ctx w w1 h).1
    rw [ProcessAdvection_passes ctx w w1 h, hs]
    cases hm : w.self.macCormackEnabled
    · refine ⟨by cases q <;> simp [advected, resultBuffer, hm, Fluid3DCalculator.slots, swap],
        ⟨.forwardAdvection, [w.self.arg .velocity READ, w.self.arg q READ],
          w.self.arg q WRITE2⟩, ?_, rfl, rfl⟩
      cases q <;> simp [advectPasses_off _ _ hm]
    · refine ⟨by cases q <;> simp [advected, resultBuffer, hm, Fluid3DCalculator.slots, swap],
        ⟨.macCormarckAdvection, [w.self.arg .velocity READ, w.self.arg q WRITE2,
          w.self.arg q WRITE3, w.self.arg q READ], w.self.arg q WRITE⟩, ?_, rfl, rfl⟩
      cases q <;> simp [advectPasses_on _ _ hm]

/-- Witness for C6: the solver with MacCormack off dispatches one pass per
`Advect` call, and the advection block promotes what slot `WRITE2` held. -/
theorem Advect_result_promoted_witness :
    newPasses (initialSim false 15 ⟨16, 16, 16⟩)
        (Advect .density (initialSim false 15 ⟨16, 16, 16⟩)) =
      [⟨.forwardAdvection,
        [⟨.velocity, 0, ⟨some ⟨.velocity, 0⟩, some ⟨.velocity, 0⟩⟩⟩,
          ⟨.density, 0, ⟨some ⟨.density, 0⟩, some ⟨.density, 0⟩⟩⟩],
        ⟨.density, 2, ⟨some ⟨.density, 2⟩, some ⟨.density, 2⟩⟩⟩⟩] ∧
    ∃ w1, ProcessAdvection okContext (initialSim false 15 ⟨16, 16, 16⟩) = .ok w1 ∧
      w1.self.slots .density READ = (initialSim false 15 ⟨16, 16, 16⟩).self.slots .density
        (if (initialSim false 15 ⟨16, 16, 16⟩).self.macCormackEnabled then WRITE else WRITE2) :=
  ⟨((Advect_result_promoted okContext (initialSim false 15 ⟨16, 16, 16⟩)).1 rfl
      Quantity.density).trans (by decide),
    _, rfl,
    ((Advect_result_promoted okContext (initialSim false 15 ⟨16, 16, 16⟩)).2 _ rfl
      Quantity.density).1⟩

/-- C7. With `jacobiIterations = 0`, in every step of every run from a
successful `Initialize`: no Jacobi pass is dispatched; the clear of
`CalculatePressureGradient` is immediately followed by the gradient subtraction
pass, whose pressure input is the cleared view; and, with the gradient
subtraction of section 4.5 of the specification, the velocity texture that pass
writes equals, in every cell, the velocity texture it read. -/
theorem zero_iterations_gradient_is_identity (ctx : MapOracle) (mac : Bool) (d : Vector3)
    (k : Nat) (w w2 : Sim) (hrun : run ctx k (initialSim mac 0 d) = .ok w)
    (h : Process ctx w = .ok w2) :
    jacobiOf (newPasses w w2) = [] ∧
    ∃ pre gs vin pin,
      workOf (newEvents w w2) = pre ++ [Event.clear pin.sp.mSRV, Event.dispatch gs] ∧
      gs.shader = .subtractGradient ∧ gs.inputs = [vin, pin] ∧
      vin.field = .velocity ∧ pin.field = .pressure ∧
      ∀ (g : Grid) (K : Shader → List Volume → Volume) (m : Memory),
        read (exec g K m (newEvents w w2)) gs.output.sp.mUAV =
          read (exec g K m (pre ++ [Event.clear pin.sp.mSRV])) vin.sp.mSRV := by
  obtain ⟨hw, hn, -, -⟩ := run_invariant ctx mac 0 d k w hrun
  have hp2 : w.self.mPressureSP READ = viewsOf ⟨.pressure, 0⟩ :=
    run_cold_start ctx mac 0 d k w hrun (by simp)
  obtain ⟨pre, tv, tw, hj, hwork, -, hm⟩ := zero_iterations_memory ctx w w2 hw hn hp2 h
  constructor
  · rw [newPasses, ← passesOf_workOf, hwork, passesOf_append, jacobiOf, List.filter_append]
    unfold jacobiOf at hj
    rw [hj]
    simp [passesOf, divergencePass, gradientPass]
  · refine ⟨pre ++ [Event.dispatch (divergencePass tv)], gradientPass tv ⟨.pressure, 0⟩ tw,
      ⟨.velocity, 0, viewsOf tv⟩, ⟨.pressure, 0, viewsOf ⟨.pressure, 0⟩⟩, ?_, rfl, rfl, rfl, rfl,
      ?_⟩
    · rw [hwork]
      simp [viewsOf]
    · intro g K m
      have := (hm g K m).1
      simpa [viewsOf, gradientPass] using this

/-- Witness for C7: the second step of a run with no Jacobi iterations. -/
theorem zero_iterations_gradient_is_identity_witness :
    ∃ w w2, run okContext 1 (initialSim true 0 ⟨16, 16, 16⟩) = .ok w ∧
      Process okContext w = .ok w2 ∧ jacobiOf (newPasses w w2) = [] :=
  ⟨_, _, rfl, rfl,
    (zero_iterations_gradient_is_identity okContext true ⟨16, 16, 16⟩ 1 _ _ rfl rfl).1⟩

/-- C8 as stated fails at the first step of the solver as constructed: the
outputs of the passes of the step are not pairwise distinct; velocity texture 1
is the output of the MacCormack pass of the velocity advection (third pass) and
of the gradient subtraction (last pass). -/
theorem velocity_buffer_written_twice :
    ∃ w2, Process okContext (defaultSim ⟨16, 16, 16⟩) = .ok w2 ∧
      ¬ ((newPasses (defaultSim ⟨16, 16, 16⟩) w2).map (fun p => p.output.sp.mUAV)).Nodup ∧
      ((newPasses (defaultSim ⟨16, 16, 16⟩) w2).get? 2).map
          (fun p => (p.shader, p.output.sp.mUAV))
        = some (.macCormarckAdvection, some ⟨.velocity, 1⟩) ∧
      ((newPasses (defaultSim ⟨16, 16, 16⟩) w2).getLast?).map
          (fun p => (p.shader, p.output.sp.mUAV))
        = some (.subtractGradient, some ⟨.velocity, 1⟩) :=
  ⟨_, rfl, by decide, by decide, by decide⟩

/-- C8, amended.  Within one completed call of `Process` on a well-formed
solver, for every iteration count and both flag values, no texture of the
temperature, density or divergence field is the output of more than one compute
pass of the step. -/
theorem scalar_buffers_single_writer (ctx : MapOracle) (w w2 : Sim)
    (hw : WellFormed w.self) (h : Process ctx w = .ok w2) (t : Texture3D)
    (ht : t.field = .temperature ∨ t.field = .density ∨ t.field = .divergence) :
    (newPasses w w2).countP (fun p => p.output.sp.mUAV = some t) ≤ 1 := by
  rw [(Process_ok ctx w w2 h).2.2.2.1, stepPasses, projectionPasses]
  obtain ⟨πv, iv, hv⟩ := hw.velocity
  obtain ⟨πt, it, ht2⟩ := hw.temperature
  obtain ⟨πd, id, hd⟩ := hw.density
  obtain ⟨πp, ip, hp⟩ := hw.pressure
  have hdiv := hw.divergence
  obtain ⟨f, k⟩ := t
  have hj : (jacobiPasses (advected w.self).jacobiIterations ((advected w.self).mPressureSP READ)
      ((advected w.self).mPressureSP WRITE) (advected w.self).mDivergenceSP).countP
      (fun p => p.output.sp.mUAV = some ⟨f, k⟩) = 0 := by
    apply jacobiPasses_countP_zero
    · rcases ht with h | h | h <;> simp only [] at h <;> subst h <;> simp [advected, hp]
    · rcases ht with h | h | h <;> simp only [] at h <;> subst h <;> simp [advected, hp]
  cases hm : w.self.macCormackEnabled
  · simp only [advectPasses_off _ _ hm, List.countP_append, hj]
    rcases ht with h | h | h <;> simp only [] at h <;> subst h
    · by_cases hk : ∃ j, πt j = k
      · obtain ⟨j, rfl⟩ := hk
        simp [List.countP_cons, Fluid3DCalculator.arg, Fluid3DCalculator.slots, advected,
          resultBuffer, hm, swap, hv, ht2, hd, hdiv, Quantity.toField, it.eq_iff]
        clear hj
        revert j
        decide
      · push_neg at hk
        simp [List.countP_cons, Fluid3DCalculator.arg, Fluid3DCalculator.slots, advected,
          resultBuffer, hm, swap, hv, ht2, hd, hdiv, Quantity.toField, hk]
    · by_cases hk : ∃ j, πd j = k
      · obtain ⟨j, rfl⟩ := hk
        simp [List.countP_cons, Fluid3DCalculator.arg, Fluid3DCalculator.slots, advected,
          resultBuffer, hm, swap, hv, ht2, hd, hdiv, Quantity.toField, id.eq_iff]
        clear hj
        revert j
        decide
      · push_neg at hk
        simp [List.countP_cons, Fluid3DCalculator.arg, Fluid3DCalculator.slots, advected,
          resultBuffer, hm, swap, hv, ht2, hd, hdiv, Quantity.toField, hk]
    · simp [List.countP_cons, Fluid3DCalculator.arg, Fluid3DCalculator.slots, advected,
        resultBuffer, hm, swap, hv, ht2, hd, hdiv, Quantity.toField]
      split_ifs <;> simp
  · simp only [advectPasses_on _ _ hm, List.countP_append, hj]
    rcases ht with h | h | h <;> simp only [] at h <;> subst h
    · by_cases hk : ∃ j, πt j = k
      · obtain ⟨j, rfl⟩ := hk
        simp [List.countP_cons, Fluid3DCalculator.arg, Fluid3DCalculator.slots, advected,
          resultBuffer, hm, swap, hv, ht2, hd, hdiv, Quantity.toField, it.eq_iff]
        clear hj
        revert j
        decide
      · push_neg at hk
        simp [List.countP_cons, Fluid3DCalculator.arg, Fluid3DCalculator.slots, advected,
          resultBuffer, hm, swap, hv, ht2, hd, hdiv, Quantity.toField, hk]
    · by_cases hk : ∃ j, πd j = k
      · obtain ⟨j, rfl⟩ := hk
        simp [List.countP_cons, Fluid3DCalculator.arg, Fluid3DCalculator.slots, advected,
          resultBuffer, hm, swap, hv, ht2, hd, hdiv, Quantity.toField, id.eq_iff]
        clear hj
        revert j
        decide
      · push_neg at hk
        simp [List.countP_cons, Fluid3DCalculator.arg, Fluid3DCalculator.slots, advected,
          resultBuffer, hm, swap, hv, ht2, hd, hdiv, Quantity.toField, hk]
    · simp [List.countP_cons, Fluid3DCalculator.arg, Fluid3DCalculator.slots, advected,
        resultBuffer, hm, swap, hv, ht2, hd, hdiv, Quantity.toField]
      split_ifs <;> simp

/-- Witness for C8, amended: temperature texture 0 in the first step of the
solver as constructed. -/
theorem scalar_buffers_single_writer_witness :
    ∃ w2, Process okContext (initialSim true 15 ⟨16, 16, 16⟩) = .ok w2 ∧
      (newPasses (initialSim true 15 ⟨16, 16, 16⟩) w2).countP
        (fun p => p.output.sp.mUAV = some ⟨.temperature, 0⟩) ≤ 1 :=
  ⟨_, rfl, scalar_buffers_single_writer okContext _ _ (WellFormed_initialSim true 15 _) rfl
    ⟨.temperature, 0⟩ (.inl rfl)⟩

/-- C9. `Process` throws if and only if one of the `Map` calls it made on a
constant block (general, dissipation or impulse) failed, and a failed `Map`
call is the last call of the step: nothing, so no compute pass, follows it. -/
theorem Process_raises_iff_map_fails (ctx : MapOracle) (w : Sim) :
    (raised (Process ctx w) = true ↔
      ∃ cb hr, Event.map cb hr ∈ newEvents w (finalSim (Process ctx w)) ∧ FAILED hr = true) ∧
    (∀ pre cb hr post,
      newEvents w (finalSim (Process ctx w)) = pre ++ Event.map cb hr :: post →
      FAILED hr = true → post = []) := by
  cases h : Process ctx w with
  | ok w2 =>
    have k := (Process_ok ctx w w2 h).2.2.2.2.1
    simp only [raised, finalSim]
    constructor
    · constructor
      · intro hf
        cases hf
      · rintro ⟨cb, hr, hmem, hf⟩
        rw [k cb hr hmem] at hf
        cases hf
    · intro pre cb hr post e hf
      have := k cb hr (by rw [e]; simp)
      rw [hf] at this
      cases this
  | error w2 =>
    have k := (Process_error ctx w w2 h).2.1
    simp only [raised, finalSim]
    constructor
    · constructor
      · intro _
        obtain ⟨pre, cb, hr, e, -, hf⟩ := k
        exact ⟨cb, hr, by rw [e]; simp, hf⟩
      · intro _
        trivial
    · intro pre cb hr post e hf
      exact abortedLog_nothing_after k pre cb hr post e hf

/-- Witness for C9: with the fourth `Map` call failing, the first step throws,
and the log of the step ends at that call, before the density advection. -/
theorem Process_raises_iff_map_fails_witness :
    raised (Process failingContext (initialSim true 15 ⟨16, 16, 16⟩)) = true ∧
    (∃ cb hr, Event.map cb hr ∈ newEvents (initialSim true 15 ⟨16, 16, 16⟩)
        (finalSim (Process failingContext (initialSim true 15 ⟨16, 16, 16⟩))) ∧
      FAILED hr = true) :=
  ⟨rfl, (Process_raises_iff_map_fails failingContext (initialSim true 15 ⟨16, 16, 16⟩)).1.1 rfl⟩

/-- C10 as stated fails at the first step of the solver as constructed
(MacCormack on, 15 Jacobi iterations) on a grid of 4 x 1 x 1 cells: when the
velocity entering the projection stage is `stripes` (x component 0, 2, 0, 2;
here every advection, impulse and buoyancy pass writes it), its mean absolute
divergence is 1/2 before the projection stage and 71711767/114791256 after it,
which is larger, not smaller.  With one Jacobi iteration in place of 15 the
values are 1/2 and 13/24. -/
theorem projection_raises_mean_divergence :
    (∃ w2 pre tv post,
      Process okContext (initialSim true 15 ⟨4, 1, 1⟩) = .ok w2 ∧
      workOf (newEvents (initialSim true 15 ⟨4, 1, 1⟩) w2) =
        pre ++ Event.dispatch (divergencePass tv) :: post ∧
      read (exec ⟨4, 1, 1⟩ (fun _ _ => stripes) (fun _ => stripes) pre) (some tv) = stripes ∧
      meanAbsDivergence ⟨4, 1, 1⟩
          (read (exec ⟨4, 1, 1⟩ (fun _ _ => stripes) (fun _ => stripes) pre) (some tv))
        = 1 / 2 ∧
      meanAbsDivergence ⟨4, 1, 1⟩
          (read (exec ⟨4, 1, 1⟩ (fun _ _ => stripes) (fun _ => stripes)
            (newEvents (initialSim true 15 ⟨4, 1, 1⟩) w2)) (w2.self.mVelocitySP READ).mSRV)
        = 71711767 / 114791256) ∧
    (∃ w2 pre tv post,
      Process okContext (initialSim true 1 ⟨4, 1, 1⟩) = .ok w2 ∧
      workOf (newEvents (initialSim true 1 ⟨4, 1, 1⟩) w2) =
        pre ++ Event.dispatch (divergencePass tv) :: post ∧
      read (exec ⟨4, 1, 1⟩ (fun _ _ => stripes) (fun _ => stripes) pre) (some tv) = stripes ∧
      meanAbsDivergence ⟨4, 1, 1⟩
          (read (exec ⟨4, 1, 1⟩ (fun _ _ => stripes) (fun _ => stripes) pre) (some tv))
        = 1 / 2 ∧
      meanAbsDivergence ⟨4, 1, 1⟩
          (read (exec ⟨4, 1, 1⟩ (fun _ _ => stripes) (fun _ => stripes)
            (newEvents (initialSim true 1 ⟨4, 1, 1⟩) w2)) (w2.self.mVelocitySP READ).mSRV)
        = 13 / 24) := by
  constructor
  · obtain ⟨w2, pre, tv, post, h, hwork, hpre, hb, ha, -⟩ := stripes_projection_grows true 14
    exact ⟨w2, pre, tv, post, h, hwork, hpre, hb, ha.trans (by norm_num)⟩
  · obtain ⟨w2, pre, tv, post, h, hwork, hpre, hb, ha, -⟩ := stripes_projection_grows true 0
    exact ⟨w2, pre, tv, post, h, hwork, hpre, hb, ha.trans (by norm_num)⟩

/-- C10, amended.  In every step of every run from a successful `Initialize`,
for every grid and every content of the textures, with `pre` the passes of the
step before the projection stage and `tv` the velocity texture the divergence
pass reads: if `jacobiIterations = 0`, or if the pressure solve of the step is
cold-started (`jacobiIterations` times the number of earlier steps is even) and
that velocity has zero divergence in every cell of the grid, then the velocity
in the `READ` slot after the step equals it in every cell of the grid, and so
has the same mean absolute divergence (equal, not smaller). -/
theorem projection_keeps_mean_divergence (ctx : MapOracle) (mac : Bool) (n : Nat)
    (d : Vector3) (k : Nat) (w w2 : Sim) (hrun : run ctx k (initialSim mac n d) = .ok w)
    (h : Process ctx w = .ok w2) :
    ∃ pre tv post,
      workOf (newEvents w w2) = pre ++ Event.dispatch (divergencePass tv) :: post ∧
      (∀ e ∈ pre, ∃ p, e = Event.dispatch p ∧ isProjection p.shader = false) ∧
      ∀ (g : Grid) (K : Shader → List Volume → Volume) (m : Memory),
        (n = 0 ∨ (n * k % 2 = 0 ∧ ∀ c ∈ cells g,
          (computeDivergence g (read (exec g K m pre) (some tv)) c.1 c.2.1 c.2.2).x = 0)) →
        (∀ c ∈ cells g,
          read (exec g K m (newEvents w w2)) (w2.self.mVelocitySP READ).mSRV c.1 c.2.1 c.2.2
            = read (exec g K m pre) (some tv) c.1 c.2.1 c.2.2) ∧
          meanAbsDivergence g
              (read (exec g K m (newEvents w w2)) (w2.self.mVelocitySP READ).mSRV)
            = meanAbsDivergence g (read (exec g K m pre) (some tv)) := by
  obtain ⟨hw, hn, -, -⟩ := run_invariant ctx mac n d k w hrun
  by_cases he : n * k % 2 = 0
  · have hp := run_cold_start ctx mac n d k w hrun he
    obtain ⟨pre, tv, post, hwork, hplain, hcf⟩ := cold_start_projection ctx w w2 hw hp h
    refine ⟨pre, tv, post, hwork, hplain, ?_⟩
    intro g K m hcase
    have key : ∀ c ∈ cells g,
        read (exec g K m (newEvents w w2)) (w2.self.mVelocitySP READ).mSRV c.1 c.2.1 c.2.2
          = read (exec g K m pre) (some tv) c.1 c.2.1 c.2.2 := by
      rw [hcf g K m]
      apply subtractGradient_zero_on_cells
      rcases hcase with h0 | ⟨-, hdiv⟩
      · rw [hn, h0]
        intro c _
        rfl
      · exact jacobi_iterate_zero_on_cells g _ hdiv _
    exact ⟨key, meanAbsDivergence_congr_cells g _ _ key⟩
  · obtain ⟨-, -, -, -, -, hwork⟩ := Process_ok ctx w w2 h
    obtain ⟨π, -, hπ⟩ := SlotsOf_swap READ (resultBuffer w.self) hw.velocity
    refine ⟨(advectPasses w.self .velocity ++ advectPasses w.self .temperature
        ++ advectPasses w.self .density).map Event.dispatch
        ++ ((projectionPasses (advected w.self)).take 3).map Event.dispatch,
      ⟨.velocity, π WRITE⟩,
      Event.clear ((advected w.self).mPressureRenderTargets READ) ::
        ((projectionPasses (advected w.self)).drop 4).map Event.dispatch, ?_,
      before_projection_plain w.self, ?_⟩
    · rw [hwork, projectionWork, projectionPasses]
      have hv : (advected w.self).mVelocitySP WRITE = viewsOf ⟨.velocity, π WRITE⟩ := hπ WRITE
      have hd2 : (advected w.self).mDivergenceSP = viewsOf ⟨.divergence, 0⟩ := hw.divergence
      simp [hv, hd2, divergencePass]
    · intro g K m hcase
      rcases hcase with h0 | ⟨he2, -⟩
      · subst h0
        simp at he
      · exact absurd he2 he

/-- Witness for C10, amended: the first step of the solver as constructed (15
iterations) on a grid of 2 x 2 x 1 cells, the velocity entering the projection
stage being `shear`, which has zero divergence in each of the four cells. -/
theorem projection_keeps_mean_divergence_witness :
    ∃ w2 pre tv post,
      Process okContext (initialSim true 15 ⟨2, 2, 1⟩) = .ok w2 ∧
      workOf (newEvents (initialSim true 15 ⟨2, 2, 1⟩) w2) =
        pre ++ Event.dispatch (divergencePass tv) :: post ∧
      read (exec ⟨2, 2, 1⟩ (fun _ _ => shear) (fun _ => shear) pre) (some tv) = shear ∧
      meanAbsDivergence ⟨2, 2, 1⟩
          (read (exec ⟨2, 2, 1⟩ (fun _ _ => shear) (fun _ => shear)
            (newEvents (initialSim true 15 ⟨2, 2, 1⟩) w2)) (w2.self.mVelocitySP READ).mSRV)
        = meanAbsDivergence ⟨2, 2, 1⟩
          (read (exec ⟨2, 2, 1⟩ (fun _ _ => shear) (fun _ => shear) pre) (some tv)) := by
  obtain ⟨pre, tv, post, hwork, hplain, hm⟩ :=
    projection_keeps_mean_divergence okContext true 15 ⟨2, 2, 1⟩ 0 _ _ rfl rfl
  have hpre : read (exec ⟨2, 2, 1⟩ (fun _ _ => shear) (fun _ => shear) pre) (some tv)
      = shear := by
    rw [exec_const _ _ _ hplain]
    rfl
  exact ⟨_, pre, tv, post, rfl, hwork, hpre,
    (hm ⟨2, 2, 1⟩ _ _ (.inr ⟨by decide, by rw [hpre]; exact shear_divergence_free⟩)).2⟩

/-- C11. With `macCormackEnabled` true, `Advect(target)` dispatches exactly three
passes: forward advection reads velocity `READ` and target `READ` and writes
target `WRITE2`; backward advection reads velocity `READ` and target `WRITE2` and
writes target `WRITE3`; the MacCormack pass reads velocity `READ` and target
`WRITE2`, `WRITE3`, `READ` in that order and writes target `WRITE`.  The slot
arrays are left as they were, no pass has target `READ` as its output slot, and
on a well-formed solver no pass writes the texture held in target `READ`. -/
theorem Advect_MacCormack_wiring (w : Sim) (q : Quantity)
    (h : w.self.macCormackEnabled = true) :
    newPasses w (Advect q w) =
      [ ⟨.forwardAdvection,
          [⟨.velocity, 0, w.self.mVelocitySP READ⟩, ⟨q.toField, 0, w.self.slots q READ⟩],
          ⟨q.toField, 2, w.self.slots q WRITE2⟩⟩,
        ⟨.backwardAdvection,
          [⟨.velocity, 0, w.self.mVelocitySP READ⟩, ⟨q.toField, 2, w.self.slots q WRITE2⟩],
          ⟨q.toField, 3, w.self.slots q WRITE3⟩⟩,
        ⟨.macCormarckAdvection,
          [⟨.velocity, 0, w.self.mVelocitySP READ⟩, ⟨q.toField, 2, w.self.slots q WRITE2⟩,
            ⟨q.toField, 3, w.self.slots q WRITE3⟩, ⟨q.toField, 0, w.self.slots q READ⟩],
          ⟨q.toField, 1, w.self.slots q WRITE⟩⟩ ] ∧
    (Advect q w).self = w.self ∧
    (∀ p ∈ newPasses w (Advect q w), p.output.field = q.toField ∧ p.output.slot ≠ 0) ∧
    (WellFormed w.self → ∀ p ∈ newPasses w (Advect q w),
      p.output.sp.mUAV ≠ (w.self.slots q READ).mUAV) := by
  have hp : newPasses w (Advect q w) = advectPasses w.self q := by
    rw [newPasses, newEvents_append w (Advect q w) _ (Advect_log q w), passesOf_map_dispatch]
  rw [hp, advectPasses_on _ _ h]
  refine ⟨?_, Advect_self q w, ?_, ?_⟩
  · simp [Fluid3DCalculator.arg, Fluid3DCalculator.slots, Quantity.toField]
  · intro p hmem
    simp only [List.mem_cons, List.mem_singleton, List.not_mem_nil, or_false] at hmem
    rcases hmem with rfl | rfl | rfl <;> simp [Fluid3DCalculator.arg]
  · intro hw p hmem
    obtain ⟨π, hi, hπ⟩ : SlotsOf q.toField (w.self.slots q) := by
      cases q
      · exact hw.velocity
      · exact hw.temperature
      · exact hw.density
    simp only [List.mem_cons, List.mem_singleton, List.not_mem_nil, or_false] at hmem
    rcases hmem with rfl | rfl | rfl <;> simp [Fluid3DCalculator.arg, hπ, hi.eq_iff]

/-- Witness for C11: `Advect` on density in the solver as constructed. -/
theorem Advect_MacCormack_wiring_witness :
    (Advect .density (initialSim true 15 ⟨16, 16, 16⟩)).self
        = (initialSim true 15 ⟨16, 16, 16⟩).self ∧
      ∀ p ∈ newPasses (initialSim true 15 ⟨16, 16, 16⟩)
          (Advect .density (initialSim true 15 ⟨16, 16, 16⟩)),
        p.output.sp.mUAV ≠ ((initialSim true 15 ⟨16, 16, 16⟩).self.slots .density READ).mUAV :=
  ⟨(Advect_MacCormack_wiring (initialSim true 15 ⟨16, 16, 16⟩) .density rfl).2.1,
    (Advect_MacCormack_wiring (initialSim true 15 ⟨16, 16, 16⟩) .density rfl).2.2.2
      (WellFormed_initialSim true 15 ⟨16, 16, 16⟩)⟩

/-- C12. For every `jacobiIterations` N >= 1: `CalculatePressureGradient`
dispatches exactly N passes, all Jacobi passes; in a completed `Process` call
these are the Jacobi passes of the step, they come between the divergence pass
and the gradient subtraction, each reads as its second input the output argument
of the divergence pass of the step, each one after the first reads as pressure
the buffer the one before it wrote, and after the step the pressure `READ` slot,
which the gradient subtraction read, holds the buffer the N-th one wrote. -/
theorem Jacobi_iterations_chain (ctx : MapOracle) (w w2 : Sim)
    (hN : 1 ≤ w.self.jacobiIterations) (h : Process ctx w = .ok w2) :
    (∀ v : Sim, jacobiOf (newPasses v (CalculatePressureGradient v))
        = newPasses v (CalculatePressureGradient v) ∧
      (newPasses v (CalculatePressureGradient v)).length = v.self.jacobiIterations) ∧
    ∃ pre dv js gs, newPasses w w2 = pre ++ dv :: (js ++ [gs]) ∧
      jacobiOf (newPasses w w2) = js ∧
      dv.shader = .divergence ∧ gs.shader = .subtractGradient ∧
      js.length = w.self.jacobiIterations ∧
      (∀ p ∈ js, p.shader = .jacobi ∧ ∃ a, p.inputs = [a, dv.output]) ∧
      List.Chain' (fun p q : Pass => ∃ a, q.inputs = [⟨.pressure, 0, p.output.sp⟩, a]) js ∧
      js.getLast?.map (fun p => p.output.sp) = some (w2.self.mPressureSP READ) ∧
      ∃ a, gs.inputs = [a, ⟨.pressure, 0, w2.self.mPressureSP READ⟩] := by
  constructor
  · intro v
    rw [CalculatePressureGradient_passes]
    exact ⟨jacobiOf_jacobiPasses _ _ _ _, jacobiPasses_length _ _ _ _⟩
  · obtain ⟨hs, -, -, hp, -, -⟩ := Process_ok ctx w w2 h
    have hn : (advected w.self).jacobiIterations = w.self.jacobiIterations := rfl
    have hread : w2.self.mPressureSP READ =
        (if w.self.jacobiIterations % 2 = 0 then (advected w.self).mPressureSP READ
          else (advected w.self).mPressureSP WRITE) := by
      rw [hs]
      show pingPong (advected w.self).jacobiIterations (advected w.self).mPressureSP READ = _
      rw [hn, pingPong]
      split_ifs
      · rfl
      · simp [swap]
    refine ⟨advectPasses w.self .velocity ++ advectPasses w.self .temperature
        ++ advectPasses w.self .density ++ (projectionPasses (advected w.self)).take 3,
      ⟨.divergence, [⟨.velocity, 0, (advected w.self).mVelocitySP WRITE⟩],
        ⟨.divergence, 0, (advected w.self).mDivergenceSP⟩⟩,
      jacobiPasses w.self.jacobiIterations ((advected w.self).mPressureSP READ)
        ((advected w.self).mPressureSP WRITE) (advected w.self).mDivergenceSP,
      ⟨.subtractGradient, [⟨.velocity, 0, (advected w.self).mVelocitySP WRITE⟩,
          ⟨.pressure, 0, pingPong (advected w.self).jacobiIterations
            (advected w.self).mPressureSP READ⟩],
        ⟨.velocity, 1, (advected w.self).mVelocitySP READ⟩⟩,
      ?_, ?_, rfl, rfl, jacobiPasses_length _ _ _ _, jacobiPasses_inputs _ _ _ _,
      jacobiPasses_chain _ _ _ _, ?_, ?_⟩
    · rw [hp, stepPasses, projectionPasses, hn]
      simp
    · have e1 := jacobiOf_advectPasses w.self .velocity
      have e2 := jacobiOf_advectPasses w.self .temperature
      have e3 := jacobiOf_advectPasses w.self .density
      have e4 := jacobiOf_jacobiPasses w.self.jacobiIterations
        ((advected w.self).mPressureSP READ) ((advected w.self).mPressureSP WRITE)
        (advected w.self).mDivergenceSP
      unfold jacobiOf at e1 e2 e3 e4
      rw [hp, stepPasses, projectionPasses, hn, jacobiOf, List.filter_append,
        List.filter_append, List.filter_append, List.filter_append, List.filter_append,
        e1, e2, e3, e4]
      simp
    · obtain ⟨n, hn1⟩ : ∃ n, w.self.jacobiIterations = n + 1 := ⟨_, (Nat.sub_add_cancel hN).symm⟩
      rw [hread, hn1]
      exact jacobiPasses_getLast n _ _ _
    · refine ⟨⟨.velocity, 0, (advected w.self).mVelocitySP WRITE⟩, ?_⟩
      rw [hs]
      rfl

/-- Witness for C12: the first step of the solver as constructed, with 15
iterations. -/
theorem Jacobi_iterations_chain_witness :
    ∃ w2 js, Process okContext (initialSim true 15 ⟨16, 16, 16⟩) = .ok w2 ∧
      jacobiOf (newPasses (initialSim true 15 ⟨16, 16, 16⟩) w2) = js ∧
      js.length = (initialSim true 15 ⟨16, 16, 16⟩).self.jacobiIterations ∧
      js.getLast?.map (fun p => p.output.sp) = some (w2.self.mPressureSP READ) := by
  obtain ⟨-, -, js, -, -, hj, -, -, hl, -, -, hlast, -⟩ :=
    (Jacobi_iterations_chain okContext (initialSim true 15 ⟨16, 16, 16⟩) _ (by decide) rfl).2
  exact ⟨_, js, rfl, hj, hl, hlast⟩

/-- C13. On a solver whose buffers are as `Initialize` leaves them (each field's
slots hold pairwise distinct textures of that field), for every iteration count
and both flag values: after any number of completed `Process` calls every slot
array still holds the buffers it held at the start, in some order; and in every
compute pass dispatched along the run, a throwing last step included, the
output buffer is none of the input buffers of that pass. -/
theorem slots_stay_permuted_passes_write_apart (ctx : MapOracle) (w0 : Sim)
    (hw : WellFormed w0.self) (k : Nat) :
    (∀ w, run ctx k w0 = .ok w → PermutedFrom w.self w0.self) ∧
    (∀ p ∈ newPasses w0 (finalSim (run ctx k w0)), ∀ a ∈ p.inputs,
      a.sp.mSRV ≠ p.output.sp.mUAV) := by
  obtain ⟨hok, herr⟩ := run_writesApart ctx w0 hw k
  constructor
  · intro w h
    exact (hok w h).2.1
  · cases h : run ctx k w0 with
    | ok w => exact (hok w h).2.2.2
    | error w => exact (herr w h).2

/-- Witness for C13: two steps of the solver as the constructor and `Initialize`
on a device without failures leave it. -/
theorem slots_stay_permuted_passes_write_apart_witness :
    ∃ w, run okContext 2 (defaultSim ⟨16, 16, 16⟩) = .ok w ∧
      PermutedFrom w.self (defaultSim ⟨16, 16, 16⟩).self :=
  ⟨_, rfl, (slots_stay_permuted_passes_write_apart okContext (defaultSim ⟨16, 16, 16⟩)
    (Initialize_wellFormed okDevice (Fluid3DCalculator.new ⟨16, 16, 16⟩) rfl rfl) 2).1 _ rfl⟩

end Fluid3D
